import Mathlib

/-!
Shallow embedding of the rlldp neighbor-discovery codec (LLDP and CDP TLV
decode/encode, data-unit assembly, and the neighbor liveness table) together
with proofs about the embedded definitions.

Byte buffers are modelled as `List Nat`; a well-formed buffer has every
element below 256 (`bytesOk`).  Machine integers are `Nat` with explicit
`% 256` / base-256 arithmetic where the source truncates.
-/

set_option maxHeartbeats 1000000

/-- Predicate: every element of the buffer is a byte value (< 256). -/
def bytesOk (l : List Nat) : Bool := l.all (· < 256)

/-- Big-endian 16-bit value from two bytes (`u16::from_be_bytes`). -/
def be16 (a b : Nat) : Nat := a * 256 + b

/-- Big-endian byte pair of a 16-bit value (`u16::to_be_bytes`). -/
def be16Bytes (n : Nat) : List Nat := [n / 256 % 256, n % 256]

/-- Little-endian 16-bit value from two bytes (`u16::from_le_bytes`). -/
def le16 (a b : Nat) : Nat := a + b * 256

/-- Little-endian byte pair of a 16-bit value (`u16::to_le_bytes`). -/
def le16Bytes (n : Nat) : List Nat := [n % 256, n / 256 % 256]

/-- Big-endian 32-bit value from four bytes (`u32::from_be_bytes`). -/
def be32 (a b c d : Nat) : Nat := ((a * 256 + b) * 256 + c) * 256 + d

/-- Big-endian byte quadruple of a 32-bit value (`u32::to_be_bytes`). -/
def be32Bytes (n : Nat) : List Nat :=
  [n / 16777216 % 256, n / 65536 % 256, n / 256 % 256, n % 256]

/-!
UTF-8 handling.  The source decodes text fields with Rust's
`String::from_utf8_lossy`, which replaces each maximal invalid byte sequence
with the replacement character U+FFFD (bytes EF BF BD).  We model the decoded
string by its byte content: `utf8Lossy` maps the raw payload bytes to the
bytes of the lossily decoded string, and `validUtf8` recognises the inputs on
which the conversion is the identity.
-/

/-- UTF-8 encoding of the replacement character U+FFFD. -/
def utf8Rep : List Nat := [0xEF, 0xBF, 0xBD]

/-- Recognises a UTF-8 continuation byte (0x80-0xBF). -/
def isUtf8Cont (b : Nat) : Bool := 0x80 ≤ b && b ≤ 0xBF

/-- Valid first-two-byte combinations of a three-byte UTF-8 sequence. -/
def utf8Valid3Head (b0 b1 : Nat) : Bool :=
  (b0 = 0xE0 && 0xA0 ≤ b1 && b1 ≤ 0xBF) ||
  (0xE1 ≤ b0 && b0 ≤ 0xEC && isUtf8Cont b1) ||
  (b0 = 0xED && 0x80 ≤ b1 && b1 ≤ 0x9F) ||
  (0xEE ≤ b0 && b0 ≤ 0xEF && isUtf8Cont b1)

/-- Valid first-two-byte combinations of a four-byte UTF-8 sequence. -/
def utf8Valid4Head (b0 b1 : Nat) : Bool :=
  (b0 = 0xF0 && 0x90 ≤ b1 && b1 ≤ 0xBF) ||
  (0xF1 ≤ b0 && b0 ≤ 0xF3 && isUtf8Cont b1) ||
  (b0 = 0xF4 && 0x80 ≤ b1 && b1 ≤ 0x8F)

/-- One step of lossy UTF-8 decoding: output bytes for the first decoded
character (or replacement) and the unconsumed remainder.  On nonempty input
at least one byte is consumed. -/
def utf8Chunk : List Nat → List Nat × List Nat
  | [] => ([], [])
  | b0 :: rest =>
    if b0 < 0x80 then ([b0], rest)
    else if 0xC2 ≤ b0 && b0 ≤ 0xDF then
      match rest with
      | [] => (utf8Rep, [])
      | b1 :: rest2 =>
        if isUtf8Cont b1 then ([b0, b1], rest2) else (utf8Rep, b1 :: rest2)
    else if 0xE0 ≤ b0 && b0 ≤ 0xEF then
      match rest with
      | [] => (utf8Rep, [])
      | b1 :: rest2 =>
        if utf8Valid3Head b0 b1 then
          match rest2 with
          | [] => (utf8Rep, [])
          | b2 :: rest3 =>
            if isUtf8Cont b2 then ([b0, b1, b2], rest3) else (utf8Rep, b2 :: rest3)
        else (utf8Rep, b1 :: rest2)
    else if 0xF0 ≤ b0 && b0 ≤ 0xF4 then
      match rest with
      | [] => (utf8Rep, [])
      | b1 :: rest2 =>
        if utf8Valid4Head b0 b1 then
          match rest2 with
          | [] => (utf8Rep, [])
          | b2 :: rest3 =>
            if isUtf8Cont b2 then
              match rest3 with
              | [] => (utf8Rep, [])
              | b3 :: rest4 =>
                if isUtf8Cont b3 then ([b0, b1, b2, b3], rest4)
                else (utf8Rep, b3 :: rest4)
            else (utf8Rep, b2 :: rest3)
        else (utf8Rep, b1 :: rest2)
    else (utf8Rep, rest)

/-- Number of bytes consumed by one chunk is at least one and at most the
whole buffer; stated as strict shrinking of the remainder on nonempty input. -/
def utf8ChunkShrinks (b0 : Nat) (rest : List Nat) :
    ((utf8Chunk (b0 :: rest)).2.length < (b0 :: rest).length) = True := by
  simp only [eq_iff_iff, iff_true]
  unfold utf8Chunk
  repeat' split
  all_goals simp_all [List.length_cons]
  all_goals omega

/-- Byte content of `String::from_utf8_lossy` applied to the buffer: valid
UTF-8 scalar sequences are copied, each rejected sequence becomes U+FFFD. -/
def utf8Lossy (l : List Nat) : List Nat :=
  match l with
  | [] => []
  | b0 :: rest =>
    (utf8Chunk (b0 :: rest)).1 ++ utf8Lossy (utf8Chunk (b0 :: rest)).2
termination_by l.length
decreasing_by exact of_eq_true (utf8ChunkShrinks _ _)

/-- Recognises a buffer whose first bytes form one valid UTF-8 scalar
(the case in which `utf8Chunk` copies instead of substituting U+FFFD). -/
def utf8HeadOk : List Nat → Bool
  | [] => false
  | b0 :: rest =>
    if b0 < 0x80 then true
    else if 0xC2 ≤ b0 && b0 ≤ 0xDF then
      match rest with
      | b1 :: _ => isUtf8Cont b1
      | [] => false
    else if 0xE0 ≤ b0 && b0 ≤ 0xEF then
      match rest with
      | b1 :: b2 :: _ => utf8Valid3Head b0 b1 && isUtf8Cont b2
      | _ => false
    else if 0xF0 ≤ b0 && b0 ≤ 0xF4 then
      match rest with
      | b1 :: b2 :: b3 :: _ => utf8Valid4Head b0 b1 && isUtf8Cont b2 && isUtf8Cont b3
      | _ => false
    else false

/-- Recognises buffers that are entirely valid UTF-8 (`from_utf8_lossy` is
the identity exactly on these). -/
def validUtf8 (l : List Nat) : Bool :=
  match l with
  | [] => true
  | b0 :: rest => utf8HeadOk (b0 :: rest) && validUtf8 (utf8Chunk (b0 :: rest)).2
termination_by l.length
decreasing_by exact of_eq_true (utf8ChunkShrinks _ _)


/-!
LLDP TLV data model, translated from `src/src/lldp/tlv/*` (the complete
module variants: `chassis_id.rs`/`port_id.rs`/`system_capabilities.rs`/
`management_address.rs`/`address.rs`/`org/{mod,dot1,dot3}.rs` plus the
framing and dispatch of `src/src/lldp/tlv/mod.rs`, with organizationally
specific TLVs delegated to the complete `org` module).  Text values are
represented by the byte content of the lossily decoded string.
-/

/-- Decode errors of the LLDP TLV codec (`TlvDecodeError` in the source). -/
inductive TlvDecodeError where
  | BufferTooShort
  | BufferTooLong
  | BytesAfterEnd
  | UnknownChassisIdSubtype (b : Nat)
  | UnknownPortIdSubtype (b : Nat)
  | UnknownManagementInterfaceSubtype (b : Nat)
  | UnknownTlv (b : Nat)
deriving DecidableEq, Repr

/-- Fatal framing error of the LLDP raw TLV layer (`RawTlvError`). -/
inductive RawTlvError where
  | BufferTooShort
deriving DecidableEq, Repr

/-- IP address (`std::net::IpAddr`): 4 explicit octets or 16 bytes. -/
inductive IpAddr where
  | V4 (a b c d : Nat)
  | V6 (bytes : List Nat)
deriving DecidableEq, Repr

/-- Network address (`NetworkAddress` in `address.rs`). -/
inductive NetworkAddress where
  | Ip (addr : IpAddr)
  | Other (subtype : Nat) (data : List Nat)
deriving DecidableEq, Repr

/-- Decode of a network address (`NetworkAddress::decode`, called `parse` in
one snapshot): leading subtype byte, then exactly 4 bytes for IPv4, exactly
16 for IPv6, anything else carried opaquely. -/
def NetworkAddress.decode : List Nat → Except TlvDecodeError NetworkAddress
  | [] => .error .BufferTooShort
  | st :: rest =>
    match st with
    | 1 =>
      match rest with
      | [a, b, c, d] => .ok (.Ip (.V4 a b c d))
      | p => if p.length > 4 then .error .BufferTooLong else .error .BufferTooShort
    | 2 =>
      if rest.length > 16 then .error .BufferTooLong
      else if rest.length < 16 then .error .BufferTooShort
      else .ok (.Ip (.V6 rest))
    | x => .ok (.Other x rest)

/-- Modelled from the spec: wire form of a network address is
`[subtype:1][address bytes]` with IPv4 exactly 4 bytes and IPv6 exactly 16
(the encoder lives in the absent `lldp-parser` address module; only its
callers are under `src/`). -/
def NetworkAddress.encode : NetworkAddress → List Nat
  | .Ip (.V4 a b c d) => [1, a, b, c, d]
  | .Ip (.V6 bytes) => 2 :: bytes
  | .Other st data => st :: data

/-- Encoded size of a network address (subtype byte plus address bytes). -/
def NetworkAddress.encodedSize : NetworkAddress → Nat
  | .Ip (.V4 _ _ _ _) => 5
  | .Ip (.V6 _) => 17
  | .Other _ data => 1 + data.length

/-- Chassis-id subtype codes (`ChassisIdKind`). -/
inductive ChassisIdKind where
  | Chassis
  | IfAlias
  | Port
  | LlAddr
  | Addr
  | IfName
  | Local
deriving DecidableEq, Repr

/-- LLDP chassis id (`ChassisId`); text variants hold the decoded string's
bytes, the MAC variant exactly six bytes. -/
inductive ChassisId where
  | Chassis (x : List Nat)
  | InterfaceAlias (x : List Nat)
  | PortComponent (x : List Nat)
  | MacAddress (mac : List Nat)
  | NetworkAddress (a : NetworkAddress)
  | InterfaceName (x : List Nat)
  | Local (x : List Nat)
deriving DecidableEq, Repr

/-- Wire subtype of a chassis id (`kind()` composed with `From<ChassisIdKind>
for u8`). -/
def ChassisId.kind : ChassisId → ChassisIdKind
  | .Chassis _ => .Chassis
  | .InterfaceAlias _ => .IfAlias
  | .PortComponent _ => .Port
  | .MacAddress _ => .LlAddr
  | .NetworkAddress _ => .Addr
  | .InterfaceName _ => .IfName
  | .Local _ => .Local

/-- Byte of a chassis-id subtype (`From<ChassisIdKind> for u8`). -/
def ChassisIdKind.toByte : ChassisIdKind → Nat
  | .Chassis => 1
  | .IfAlias => 2
  | .Port => 3
  | .LlAddr => 4
  | .Addr => 5
  | .IfName => 6
  | .Local => 7

/-- Owned-form conversion of a chassis id (`ChassisId::to_static`, identical
in both snapshots `src/src/lldp/tlv/chassis_id.rs` and
`src/lldp-parser/src/lldp/tlv/chassis_id.rs`); note the `InterfaceName` arm
of the source builds an `InterfaceAlias`. -/
def ChassisId.toStatic : ChassisId → ChassisId
  | .Chassis x => .Chassis x
  | .InterfaceAlias x => .InterfaceAlias x
  | .PortComponent x => .PortComponent x
  | .MacAddress x => .MacAddress x
  | .NetworkAddress x => .NetworkAddress x
  | .InterfaceName x => .InterfaceAlias x
  | .Local x => .Local x

/-- Decode of a chassis id TLV payload (`ChassisId::decode`): subtype byte,
then subtype-specific content; MAC requires exactly six bytes. -/
def ChassisId.decode : List Nat → Except TlvDecodeError ChassisId
  | [] => .error .BufferTooShort
  | s :: rest =>
    match s with
    | 1 => .ok (.Chassis (utf8Lossy rest))
    | 2 => .ok (.InterfaceAlias (utf8Lossy rest))
    | 3 => .ok (.PortComponent (utf8Lossy rest))
    | 6 => .ok (.InterfaceName (utf8Lossy rest))
    | 7 => .ok (.Local (utf8Lossy rest))
    | 5 =>
      match NetworkAddress.decode rest with
      | .ok a => .ok (.NetworkAddress a)
      | .error e => .error e
    | 4 =>
      match rest with
      | [m1, m2, m3, m4, m5, m6] => .ok (.MacAddress [m1, m2, m3, m4, m5, m6])
      | p => if p.length > 6 then .error .BufferTooLong else .error .BufferTooShort
    | x => .error (.UnknownChassisIdSubtype x)

/-- Encode of a chassis id TLV payload (`ChassisId::encode` in
`src/lldp-parser/src/lldp/tlv/chassis_id.rs`): subtype byte then content. -/
def ChassisId.encode (c : ChassisId) : List Nat :=
  c.kind.toByte ::
    match c with
    | .Chassis x | .InterfaceAlias x | .PortComponent x | .InterfaceName x | .Local x => x
    | .MacAddress mac => mac
    | .NetworkAddress a => a.encode

/-- Port-id subtype codes (`PortIdKind`). -/
inductive PortIdKind where
  | IfAlias
  | Port
  | LlAddr
  | Addr
  | IfName
  | AgentCid
  | Local
deriving DecidableEq, Repr

/-- LLDP port id (`PortId`). -/
inductive PortId where
  | InterfaceAlias (x : List Nat)
  | PortComponent (x : List Nat)
  | MacAddress (mac : List Nat)
  | NetworkAddress (a : NetworkAddress)
  | InterfaceName (x : List Nat)
  | AgentCircuitId (x : List Nat)
  | Local (x : List Nat)
deriving DecidableEq, Repr

/-- Wire subtype of a port id (`kind()`). -/
def PortId.kind : PortId → PortIdKind
  | .InterfaceAlias _ => .IfAlias
  | .PortComponent _ => .Port
  | .MacAddress _ => .LlAddr
  | .NetworkAddress _ => .Addr
  | .InterfaceName _ => .IfName
  | .AgentCircuitId _ => .AgentCid
  | .Local _ => .Local

/-- Byte of a port-id subtype (`From<PortIdKind> for u8`). -/
def PortIdKind.toByte : PortIdKind → Nat
  | .IfAlias => 1
  | .Port => 2
  | .LlAddr => 3
  | .Addr => 4
  | .IfName => 5
  | .AgentCid => 6
  | .Local => 7

/-- Owned-form conversion of a port id (`PortId::to_static`). -/
def PortId.toStatic : PortId → PortId
  | .InterfaceAlias x => .InterfaceAlias x
  | .PortComponent x => .PortComponent x
  | .MacAddress x => .MacAddress x
  | .NetworkAddress x => .NetworkAddress x
  | .InterfaceName x => .InterfaceName x
  | .AgentCircuitId x => .AgentCircuitId x
  | .Local x => .Local x

/-- Decode of a port id TLV payload (`PortId::decode`). -/
def PortId.decode : List Nat → Except TlvDecodeError PortId
  | [] => .error .BufferTooShort
  | s :: rest =>
    match s with
    | 5 => .ok (.InterfaceName (utf8Lossy rest))
    | 1 => .ok (.InterfaceAlias (utf8Lossy rest))
    | 2 => .ok (.PortComponent (utf8Lossy rest))
    | 7 => .ok (.Local (utf8Lossy rest))
    | 6 => .ok (.AgentCircuitId rest)
    | 4 =>
      match NetworkAddress.decode rest with
      | .ok a => .ok (.NetworkAddress a)
      | .error e => .error e
    | 3 =>
      match rest with
      | [m1, m2, m3, m4, m5, m6] => .ok (.MacAddress [m1, m2, m3, m4, m5, m6])
      | p => if p.length > 6 then .error .BufferTooLong else .error .BufferTooShort
    | x => .error (.UnknownPortIdSubtype x)

/-- Encode of a port id TLV payload (`PortId::encode`). -/
def PortId.encode (p : PortId) : List Nat :=
  p.kind.toByte ::
    match p with
    | .InterfaceAlias x | .PortComponent x | .InterfaceName x | .Local x => x
    | .MacAddress mac => mac
    | .NetworkAddress a => a.encode
    | .AgentCircuitId x => x

/-- System capabilities (`Capabilities`): two 16-bit flag words, all bits
retained (`from_bits_retain`). -/
structure Capabilities where
  capabilities : Nat
  enabled_capabilities : Nat
deriving DecidableEq, Repr

/-- Decode of a capabilities TLV payload (`Capabilities::decode`): exactly
four bytes, two big-endian 16-bit words. -/
def Capabilities.decode : List Nat → Except TlvDecodeError Capabilities
  | [a, b, c, d] => .ok ⟨be16 a b, be16 c d⟩
  | p => if p.length > 4 then .error .BufferTooLong else .error .BufferTooShort

/-- Encode of a capabilities TLV payload (`Capabilities::encode`). -/
def Capabilities.encode (c : Capabilities) : List Nat :=
  be16Bytes c.capabilities ++ be16Bytes c.enabled_capabilities

/-- Management-interface numbering subtype (`ManagementInterfaceKind`). -/
inductive ManagementInterfaceKind where
  | Unknown
  | IfIndex
  | SysPort
deriving DecidableEq, Repr

/-- Wire byte of the interface numbering subtype (`TryFrom<u8>`, partial
inverse returned as an `Option`). -/
def ManagementInterfaceKind.fromByte : Nat → Option ManagementInterfaceKind
  | 1 => some .Unknown
  | 2 => some .IfIndex
  | 3 => some .SysPort
  | _ => none

/-- Byte of the interface numbering subtype (`From<ManagementInterfaceKind>
for u8`). -/
def ManagementInterfaceKind.toByte : ManagementInterfaceKind → Nat
  | .Unknown => 1
  | .IfIndex => 2
  | .SysPort => 3

/-- LLDP management address TLV body (`ManagementAddress`). -/
structure ManagementAddress where
  address : NetworkAddress
  interface_subtype : ManagementInterfaceKind
  interface_number : Nat
  oid : List Nat
deriving DecidableEq, Repr

/-- Decode of a management address TLV payload
(`ManagementAddress::decode`). -/
def ManagementAddress.decode : List Nat → Except TlvDecodeError ManagementAddress
  | [] => .error .BufferTooShort
  | b0 :: rest =>
    if rest.length < b0 then .error .BufferTooShort
    else
      match NetworkAddress.decode (rest.take b0) with
      | .error e => .error e
      | .ok address =>
        match rest.drop b0 with
        | st :: n1 :: n2 :: n3 :: n4 :: olen :: oidBytes =>
          match ManagementInterfaceKind.fromByte st with
          | none => .error (.UnknownManagementInterfaceSubtype st)
          | some k =>
            if oidBytes.length > olen then .error .BufferTooLong
            else if oidBytes.length < olen then .error .BufferTooShort
            else .ok ⟨address, k, be32 n1 n2 n3 n4, utf8Lossy oidBytes⟩
        | _ => .error .BufferTooShort

/-- Encode of a management address TLV payload
(`ManagementAddress::encode`): address-string length byte, address, subtype
byte, 32-bit interface number, OID length byte, OID bytes. -/
def ManagementAddress.encode (m : ManagementAddress) : List Nat :=
  (m.address.encodedSize % 256) ::
    (m.address.encode ++ m.interface_subtype.toByte :: be32Bytes m.interface_number ++
      (m.oid.length % 256) :: m.oid)

/-- IEEE 802.1 (dot1) organizationally specific sub-TLV (`org::dot1::Tlv`). -/
inductive Dot1Tlv where
  | PortVlanId (v : Nat)
  | VlanName (vlan : Nat) (name : List Nat)
deriving DecidableEq, Repr

/-- Decode of a dot1 sub-TLV (`dot1::Tlv::decode`): subtype 1 is a two-byte
port VLAN id, subtype 3 a VLAN id plus length-prefixed name; other subtypes
are unknown-TLV errors. -/
def Dot1Tlv.decode (subtype : Nat) (buf : List Nat) : Except TlvDecodeError Dot1Tlv :=
  match subtype with
  | 1 =>
    match buf with
    | [a, b] => .ok (.PortVlanId (be16 a b))
    | p => if p.length > 2 then .error .BufferTooLong else .error .BufferTooShort
  | 3 =>
    match buf with
    | v1 :: v2 :: nlen :: rest =>
      if rest.length > nlen then .error .BufferTooLong
      else if rest.length < nlen then .error .BufferTooShort
      else .ok (.VlanName (be16 v1 v2) (utf8Lossy rest))
    | _ => .error .BufferTooShort
  | x => .error (.UnknownTlv x)

/-- Encode of a dot1 sub-TLV (`dot1::Tlv::encode` in
`src/lldp-parser/src/lldp/tlv/org/dot1.rs`): subtype byte then body. -/
def Dot1Tlv.encode : Dot1Tlv → List Nat
  | .PortVlanId v => 1 :: be16Bytes v
  | .VlanName vlan name => 3 :: (be16Bytes vlan ++ (name.length % 256) :: name)

/-- IANA dot3 MAU type (`MauType`), numeric passthrough for unknown codes. -/
inductive MauType where
  | Aui
  | B10Base5
  | Foirl
  | B10Base2
  | B10BaseT
  | B10BaseFP
  | B10BaseFB
  | B10BaseFL
  | B10Broad36
  | B10BaseTHD
  | B10BaseTFD
  | B10BaseFLHD
  | B10BaseFLFD
  | B100BaseT4
  | B100BaseTXHD
  | B100BaseTXFD
  | B100BaseFXHD
  | B100BaseFXFD
  | B100BaseT2HD
  | B100BaseT2FD
  | B1000BaseXHD
  | B1000BaseXFD
  | B1000BaseLXHD
  | B1000BaseLXFD
  | B1000BaseSXHD
  | B1000BaseSXFD
  | B1000BaseCXHD
  | B1000BaseCXFD
  | B1000BaseTHD
  | B1000BaseTFD
  | B10GigBaseX
  | B10GigBaseLX4
  | B10GigBaseR
  | B10GigBaseER
  | B10GigBaseLR
  | B10GigBaseSR
  | B10GigBaseW
  | B10GigBaseEW
  | B10GigBaseLW
  | B10GigBaseSW
  | B10GigBaseCX4
  | B2BaseTL
  | B10PassTS
  | B100BaseBX10D
  | B100BaseBX10U
  | B100BaseLX10
  | B1000BaseBX10D
  | B1000BaseBX10U
  | B1000BaseLX10
  | B1000BasePX10D
  | B1000BasePX10U
  | B1000BasePX20D
  | B1000BasePX20U
  | Unknown (x : Nat)
deriving Repr

/-- Wire code to MAU type (`From<u16> for MauType`). -/
def MauType.fromU16 (n : Nat) : MauType :=
  if n = 1 then .Aui
  else if n = 2 then .B10Base5
  else if n = 3 then .Foirl
  else if n = 4 then .B10Base2
  else if n = 5 then .B10BaseT
  else if n = 6 then .B10BaseFP
  else if n = 7 then .B10BaseFB
  else if n = 8 then .B10BaseFL
  else if n = 9 then .B10Broad36
  else if n = 10 then .B10BaseTHD
  else if n = 11 then .B10BaseTFD
  else if n = 12 then .B10BaseFLHD
  else if n = 13 then .B10BaseFLFD
  else if n = 14 then .B100BaseT4
  else if n = 15 then .B100BaseTXHD
  else if n = 16 then .B100BaseTXFD
  else if n = 17 then .B100BaseFXHD
  else if n = 18 then .B100BaseFXFD
  else if n = 19 then .B100BaseT2HD
  else if n = 20 then .B100BaseT2FD
  else if n = 21 then .B1000BaseXHD
  else if n = 22 then .B1000BaseXFD
  else if n = 23 then .B1000BaseLXHD
  else if n = 24 then .B1000BaseLXFD
  else if n = 25 then .B1000BaseSXHD
  else if n = 26 then .B1000BaseSXFD
  else if n = 27 then .B1000BaseCXHD
  else if n = 28 then .B1000BaseCXFD
  else if n = 29 then .B1000BaseTHD
  else if n = 30 then .B1000BaseTFD
  else if n = 31 then .B10GigBaseX
  else if n = 32 then .B10GigBaseLX4
  else if n = 33 then .B10GigBaseR
  else if n = 34 then .B10GigBaseER
  else if n = 35 then .B10GigBaseLR
  else if n = 36 then .B10GigBaseSR
  else if n = 37 then .B10GigBaseW
  else if n = 38 then .B10GigBaseEW
  else if n = 39 then .B10GigBaseLW
  else if n = 40 then .B10GigBaseSW
  else if n = 41 then .B10GigBaseCX4
  else if n = 42 then .B2BaseTL
  else if n = 43 then .B10PassTS
  else if n = 44 then .B100BaseBX10D
  else if n = 45 then .B100BaseBX10U
  else if n = 46 then .B100BaseLX10
  else if n = 47 then .B1000BaseBX10D
  else if n = 48 then .B1000BaseBX10U
  else if n = 49 then .B1000BaseLX10
  else if n = 50 then .B1000BasePX10D
  else if n = 51 then .B1000BasePX10U
  else if n = 52 then .B1000BasePX20D
  else if n = 53 then .B1000BasePX20U
  else .Unknown n

/-- MAU type to wire code (`From<MauType> for u16`); the source maps both
`B10BaseFL` and `B10Broad36` to 9. -/
def MauType.toU16 : MauType → Nat
  | .Aui => 1
  | .B10Base5 => 2
  | .Foirl => 3
  | .B10Base2 => 4
  | .B10BaseT => 5
  | .B10BaseFP => 6
  | .B10BaseFB => 7
  | .B10BaseFL => 9
  | .B10Broad36 => 9
  | .B10BaseTHD => 10
  | .B10BaseTFD => 11
  | .B10BaseFLHD => 12
  | .B10BaseFLFD => 13
  | .B100BaseT4 => 14
  | .B100BaseTXHD => 15
  | .B100BaseTXFD => 16
  | .B100BaseFXHD => 17
  | .B100BaseFXFD => 18
  | .B100BaseT2HD => 19
  | .B100BaseT2FD => 20
  | .B1000BaseXHD => 21
  | .B1000BaseXFD => 22
  | .B1000BaseLXHD => 23
  | .B1000BaseLXFD => 24
  | .B1000BaseSXHD => 25
  | .B1000BaseSXFD => 26
  | .B1000BaseCXHD => 27
  | .B1000BaseCXFD => 28
  | .B1000BaseTHD => 29
  | .B1000BaseTFD => 30
  | .B10GigBaseX => 31
  | .B10GigBaseLX4 => 32
  | .B10GigBaseR => 33
  | .B10GigBaseER => 34
  | .B10GigBaseLR => 35
  | .B10GigBaseSR => 36
  | .B10GigBaseW => 37
  | .B10GigBaseEW => 38
  | .B10GigBaseLW => 39
  | .B10GigBaseSW => 40
  | .B10GigBaseCX4 => 41
  | .B2BaseTL => 42
  | .B10PassTS => 43
  | .B100BaseBX10D => 44
  | .B100BaseBX10U => 45
  | .B100BaseLX10 => 46
  | .B1000BaseBX10D => 47
  | .B1000BaseBX10U => 48
  | .B1000BaseLX10 => 49
  | .B1000BasePX10D => 50
  | .B1000BasePX10U => 51
  | .B1000BasePX20D => 52
  | .B1000BasePX20U => 53
  | .Unknown x => x

/-- MAC/PHY configuration status (`MacPhyStatus`): autonegotiation status
byte, advertised-capability word, MAU type. -/
structure MacPhyStatus where
  status : Nat
  advertised : Nat
  mau : MauType
deriving Repr

/-- IEEE 802.3 (dot3) organizationally specific sub-TLV (`org::dot3::Tlv`). -/
inductive Dot3Tlv where
  | MacPhyStatus (s : MacPhyStatus)
deriving Repr

/-- Decode of a dot3 sub-TLV (`dot3::Tlv::decode`): subtype 1 is a
five-byte MAC/PHY status (status byte, little-endian advertised word,
big-endian MAU code); other subtypes are unknown-TLV errors. -/
def Dot3Tlv.decode (subtype : Nat) (buf : List Nat) : Except TlvDecodeError Dot3Tlv :=
  match subtype with
  | 1 =>
    match buf with
    | [st, a1, a2, m1, m2] =>
      .ok (.MacPhyStatus ⟨st, le16 a1 a2, MauType.fromU16 (be16 m1 m2)⟩)
    | p => if p.length > 5 then .error .BufferTooLong else .error .BufferTooShort
  | x => .error (.UnknownTlv x)

/-- Encode of a dot3 sub-TLV (`dot3::Tlv::encode`). -/
def Dot3Tlv.encode : Dot3Tlv → List Nat
  | .MacPhyStatus s => 1 :: s.status :: (le16Bytes s.advertised ++ be16Bytes s.mau.toU16)

/-- OUI of the IEEE 802.1 organization (`LLDP_TLV_ORG_DOT1`). -/
def dot1OUI : List Nat := [0x00, 0x80, 0xC2]

/-- OUI of the IEEE 802.3 organization (`LLDP_TLV_ORG_DOT3`). -/
def dot3OUI : List Nat := [0x00, 0x12, 0x0F]

/-- Organizationally specific TLV (`OrgTlv`): dot1, dot3, or an opaque
custom capture of an unknown organization. -/
inductive OrgTlv where
  | Dot1 (t : Dot1Tlv)
  | Dot3 (t : Dot3Tlv)
  | Custom (org : List Nat) (subtype : Nat) (data : List Nat)
deriving Repr

/-- Decode of an org TLV payload (`OrgTlv::decode` in `org/mod.rs`): three
OUI bytes and a subtype byte select the organization; unknown organizations
degrade to a lossless `Custom` capture. -/
def OrgTlv.decode (buf : List Nat) : Except TlvDecodeError OrgTlv :=
  match buf with
  | o1 :: o2 :: o3 :: subtype :: rest =>
    if [o1, o2, o3] = dot1OUI then
      match Dot1Tlv.decode subtype rest with
      | .ok t => .ok (.Dot1 t)
      | .error e => .error e
    else if [o1, o2, o3] = dot3OUI then
      match Dot3Tlv.decode subtype rest with
      | .ok t => .ok (.Dot3 t)
      | .error e => .error e
    else .ok (.Custom [o1, o2, o3] subtype rest)
  | _ => .error .BufferTooShort

/-- Organization bytes of an org TLV (`OrgTlv::org`). -/
def OrgTlv.org : OrgTlv → List Nat
  | .Dot1 _ => dot1OUI
  | .Dot3 _ => dot3OUI
  | .Custom org _ _ => org

/-- Encode of an org TLV payload (`OrgTlv::encode`): organization bytes then
the sub-TLV's own encoding (subtype byte plus body). -/
def OrgTlv.encode (o : OrgTlv) : List Nat :=
  o.org ++
    match o with
    | .Dot1 t => t.encode
    | .Dot3 t => t.encode
    | .Custom _ subtype data => subtype :: data


/-- LLDP TLV (`Tlv` in `src/src/lldp/tlv/mod.rs`); text variants hold the
decoded string's bytes. -/
inductive Tlv where
  | End
  | ChassisId (c : ChassisId)
  | PortId (p : PortId)
  | TimeToLive (t : Nat)
  | PortDescription (x : List Nat)
  | SystemName (x : List Nat)
  | SystemDescription (x : List Nat)
  | Capabilities (c : Capabilities)
  | ManagementAddress (m : ManagementAddress)
  | Org (o : OrgTlv)
deriving Repr

/-- Raw (framed but undecoded) LLDP TLV (`RawTlv`). -/
structure RawTlv where
  ty : Nat
  payload : List Nat
deriving DecidableEq, Repr

/-- Total on-wire length of a raw TLV: payload plus the two header bytes
(`RawTlv::total_len`). -/
def RawTlv.totalLen (r : RawTlv) : Nat := r.payload.length + 2

/-- LLDP TLV framing (`RawTlv::decode`): the first byte's top seven bits are
the type, its low bit is the ninth (high) bit of the payload length whose
low eight bits are the second byte; the payload is the next `len` bytes and
a buffer too short for header or payload is a fatal framing error. -/
def RawTlv.decode : List Nat → Except RawTlvError RawTlv
  | b0 :: b1 :: rest =>
    let payloadLen := (b0 % 2) * 256 + b1
    if rest.length < payloadLen then .error .BufferTooShort
    else .ok ⟨b0 / 2, rest.take payloadLen⟩
  | _ => .error .BufferTooShort

/-- Typed decode of one framed LLDP TLV (`Tlv::decode` in
`src/src/lldp/tlv/mod.rs`, with the organizationally specific arm delegating
to the complete `org` module as in the authoritative variant). -/
def Tlv.decode (raw : RawTlv) : Except TlvDecodeError Tlv :=
  match raw.ty with
  | 0 => if raw.payload.length > 2 then .error .BytesAfterEnd else .ok .End
  | 1 =>
    match ChassisId.decode raw.payload with
    | .ok c => .ok (.ChassisId c)
    | .error e => .error e
  | 2 =>
    match PortId.decode raw.payload with
    | .ok p => .ok (.PortId p)
    | .error e => .error e
  | 3 =>
    match raw.payload with
    | [a, b] => .ok (.TimeToLive (be16 a b))
    | p => if p.length > 2 then .error .BufferTooLong else .error .BufferTooShort
  | 4 => .ok (.PortDescription (utf8Lossy raw.payload))
  | 5 => .ok (.SystemName (utf8Lossy raw.payload))
  | 6 => .ok (.SystemDescription (utf8Lossy raw.payload))
  | 7 =>
    match Capabilities.decode raw.payload with
    | .ok c => .ok (.Capabilities c)
    | .error e => .error e
  | 8 =>
    match ManagementAddress.decode raw.payload with
    | .ok m => .ok (.ManagementAddress m)
    | .error e => .error e
  | x =>
    if x = 127 then
      match OrgTlv.decode raw.payload with
      | .ok o => .ok (.Org o)
      | .error e => .error e
    else .error (.UnknownTlv x)

/-- Wire type code of an LLDP TLV (`From<TlvKind> for u8`). -/
def Tlv.tyByte : Tlv → Nat
  | .End => 0
  | .ChassisId _ => 1
  | .PortId _ => 2
  | .TimeToLive _ => 3
  | .PortDescription _ => 4
  | .SystemName _ => 5
  | .SystemDescription _ => 6
  | .Capabilities _ => 7
  | .ManagementAddress _ => 8
  | .Org _ => 127

/-- Payload bytes of an LLDP TLV on encode: each variant's component encoder
from the source; `End` has an empty payload, the 16-bit TTL is big-endian. -/
def Tlv.encodePayload : Tlv → List Nat
  | .End => []
  | .ChassisId c => c.encode
  | .PortId p => p.encode
  | .TimeToLive t => be16Bytes t
  | .PortDescription x => x
  | .SystemName x => x
  | .SystemDescription x => x
  | .Capabilities c => c.encode
  | .ManagementAddress m => m.encode
  | .Org o => o.encode

/-- Modelled from the spec: the top-level LLDP TLV encoder (the
`lldp-parser` crate's `tlv/mod.rs`, absent from the sources, carries it;
only its callers and per-variant encoders are present).  Header per the
spec's wire format: one big-endian 16-bit word, type in bits 15..9 and the
payload length in bits 8..0, followed by the payload. -/
def Tlv.encode (t : Tlv) : List Nat :=
  (t.tyByte * 2 + t.encodePayload.length / 256) :: (t.encodePayload.length % 256) ::
    t.encodePayload

/-- Decode of an LLDP TLV list (`decode_list`): frame TLVs back to back;
framing errors abort, per-TLV decode errors drop that TLV and continue. -/
def decodeList : List Nat → Except RawTlvError (List Tlv)
  | [] => .ok []
  | b0 :: rest =>
    match RawTlv.decode (b0 :: rest) with
    | .error e => .error e
    | .ok raw =>
      match decodeList ((b0 :: rest).drop raw.totalLen) with
      | .error e => .error e
      | .ok out =>
        match Tlv.decode raw with
        | .ok tlv => .ok (tlv :: out)
        | .error _ => .ok out
termination_by buf => buf.length
decreasing_by simp [RawTlv.totalLen, List.length_drop]; omega


/-!
LLDP data-unit assembly, translated from `src/src/lldp/du.rs` (identical to
the `lldp-parser` snapshot's decode loop).
-/

/-- Assembly errors of the LLDP data unit (`DataUnitError`). -/
inductive DataUnitError where
  | MissingChassisId
  | MissingPortId
  | MissingTimeToLive
  | RawTlvError (e : RawTlvError)
deriving DecidableEq, Repr

/-- Accumulated dot1 organizational fields of a data unit (`Dot1`). -/
structure Dot1Fields where
  port_vlan_id : Option Nat := none
  vlan_name : List (Nat × List Nat) := []
deriving DecidableEq, Repr

/-- Accumulated dot3 organizational fields of a data unit (`Dot3`). -/
structure Dot3Fields where
  mac_phy_status : Option MacPhyStatus := none
deriving Repr

/-- Organizational fields of a data unit (`Org`). -/
structure OrgFields where
  dot1 : Dot1Fields := {}
  dot3 : Dot3Fields := {}
deriving Repr

/-- Assembled LLDP data unit (`DataUnit` in `du.rs`). -/
structure DataUnit where
  chassis_id : ChassisId
  port_id : PortId
  time_to_live : Nat
  port_description : Option (List Nat)
  system_name : Option (List Nat)
  system_description : Option (List Nat)
  capabilities : Option Capabilities
  management_address : List ManagementAddress
  org : OrgFields
deriving Repr

/-- Accumulator of the assembly loop in `DataUnit::decode`: one optional
slot per single-valued field, lists for the multi-valued ones. -/
structure AssembleAcc where
  chassis_id : Option ChassisId := none
  port_id : Option PortId := none
  time_to_live : Option Nat := none
  port_description : Option (List Nat) := none
  system_name : Option (List Nat) := none
  system_description : Option (List Nat) := none
  capabilities : Option Capabilities := none
  management_address : List ManagementAddress := []
  org : OrgFields := {}
deriving Repr

/-- One iteration of the assembly loop in `DataUnit::decode`: single-valued
fields are overwritten on duplicates (the discarded prior value is only
logged), management addresses and VLAN names append, `End` and custom org
TLVs fall through. -/
def assembleStep (acc : AssembleAcc) (t : Tlv) : AssembleAcc :=
  match t with
  | .End => acc
  | .ChassisId c => { acc with chassis_id := some c }
  | .PortId p => { acc with port_id := some p }
  | .TimeToLive ttl => { acc with time_to_live := some ttl }
  | .PortDescription x => { acc with port_description := some x }
  | .SystemName x => { acc with system_name := some x }
  | .SystemDescription x => { acc with system_description := some x }
  | .Capabilities c => { acc with capabilities := some c }
  | .ManagementAddress m =>
    { acc with management_address := acc.management_address ++ [m] }
  | .Org (.Dot1 (.PortVlanId v)) =>
    { acc with org := { acc.org with dot1 := { acc.org.dot1 with port_vlan_id := some v } } }
  | .Org (.Dot1 (.VlanName v n)) =>
    { acc with org := { acc.org with dot1 :=
        { acc.org.dot1 with vlan_name := acc.org.dot1.vlan_name ++ [(v, n)] } } }
  | .Org (.Dot3 (.MacPhyStatus s)) =>
    { acc with org := { acc.org with dot3 := { mac_phy_status := some s } } }
  | .Org (.Custom _ _ _) => acc

/-- Data-unit assembly over an already decoded TLV sequence: the
accumulator loop of `DataUnit::decode` followed by its mandatory-field
checks (chassis id, then port id, then time to live). -/
def assemble (tlvs : List Tlv) : Except DataUnitError DataUnit :=
  let acc := tlvs.foldl assembleStep {}
  match acc.chassis_id with
  | none => .error .MissingChassisId
  | some c =>
    match acc.port_id with
    | none => .error .MissingPortId
    | some p =>
      match acc.time_to_live with
      | none => .error .MissingTimeToLive
      | some ttl =>
        .ok { chassis_id := c, port_id := p, time_to_live := ttl,
              port_description := acc.port_description,
              system_name := acc.system_name,
              system_description := acc.system_description,
              capabilities := acc.capabilities,
              management_address := acc.management_address,
              org := acc.org }

/-- Byte-level LLDP data-unit decode (`DataUnit::decode`): frame and decode
the TLV list, then assemble. -/
def DataUnit.decode (buf : List Nat) : Except DataUnitError DataUnit :=
  match decodeList buf with
  | .error e => .error (.RawTlvError e)
  | .ok tlvs => assemble tlvs

/-!
CDP codec, translated from `src/src/cdp/tlv.rs` and `src/src/cdp/mod.rs`.
Operations that can hit a Rust panic (out-of-range slice index; arithmetic
underflow aborts only debug builds, release builds wrap) are modelled in
`Option`, with `none` standing for the panic.
-/

namespace Cdp

/-- Fatal framing error of the CDP raw TLV layer (`cdp::RawTlvError`). -/
inductive RawTlvError where
  | BufferTooShort
deriving DecidableEq, Repr

/-- Decode errors of the CDP TLV codec (`cdp::TlvDecodeError`). -/
inductive TlvDecodeError where
  | BufferTooShort
  | BufferTooLong
  | BytesAfterEnd
  | UnknownTlv (b : Nat)
deriving DecidableEq, Repr

/-- Raw (framed but undecoded) CDP TLV (`cdp::RawTlv`). -/
structure RawTlv where
  ty : Nat
  payload : List Nat
deriving DecidableEq, Repr

/-- Total on-wire length of a raw CDP TLV: payload plus the four header
bytes (`RawTlv::total_len`). -/
def RawTlv.totalLen (r : RawTlv) : Nat := r.payload.length + 4

/-- CDP TLV framing (`cdp::RawTlv::decode`).  The declared `total_length`
includes the header, and the source computes the payload length as
`(len as usize) - 4` (wrapping at `2 ^ 64` as in release builds), guards
only `buf.len() < len`, and then slices `buf[4..4 + len]`; a slice bound
past the end of the buffer is a Rust panic, modelled as `none`. -/
def RawTlv.decode (buf : List Nat) : Option (Except RawTlvError RawTlv) :=
  match buf with
  | t1 :: t2 :: l1 :: l2 :: rest =>
    let len := (be16 l1 l2 + (2 ^ 64 - 4)) % 2 ^ 64
    if buf.length < len then some (.error .BufferTooShort)
    else if 4 + len ≤ buf.length then some (.ok ⟨be16 t1 t2, rest.take len⟩)
    else none
  | _ => some (.error .BufferTooShort)

/-- CDP duplex value (`cdp::Duplex`). -/
inductive Duplex where
  | Half
  | Full
deriving DecidableEq, Repr

/-- Typed CDP TLV (`cdp::Tlv`). -/
inductive Tlv where
  | DeviceId (x : List Nat)
  | PortId (x : List Nat)
  | SoftwareVersion (x : List Nat)
  | Platform (x : List Nat)
  | NativeVlan (v : Nat)
  | Duplex (d : Duplex)
deriving DecidableEq, Repr

/-- Typed decode of one framed CDP TLV (`cdp::Tlv::decode`): text kinds are
lossy UTF-8, the native VLAN is an exact two-byte big-endian word, duplex is
one byte with zero half and anything else full. -/
def Tlv.decode (raw : RawTlv) : Except TlvDecodeError Tlv :=
  match raw.ty with
  | 0x0001 => .ok (.DeviceId (utf8Lossy raw.payload))
  | 0x0003 => .ok (.PortId (utf8Lossy raw.payload))
  | 0x0005 => .ok (.SoftwareVersion (utf8Lossy raw.payload))
  | 0x0006 => .ok (.Platform (utf8Lossy raw.payload))
  | 0x000a =>
    match raw.payload with
    | [a, b] => .ok (.NativeVlan (be16 a b))
    | p => if p.length > 2 then .error .BufferTooLong else .error .BufferTooShort
  | 0x000b =>
    match raw.payload with
    | [d] => if d = 0 then .ok (.Duplex .Half) else .ok (.Duplex .Full)
    | p => if p.length > 1 then .error .BufferTooLong else .error .BufferTooShort
  | x => .error (.UnknownTlv x)

/-- Assembled CDP data unit (`cdp::DataUnit`). -/
structure DataUnit where
  time_to_live : Nat
  device_id : Option (List Nat) := none
  software_version : Option (List Nat) := none
  platform : Option (List Nat) := none
  port_id : Option (List Nat) := none
  duplex : Option Duplex := none
  native_vlan : Option Nat := none
deriving DecidableEq, Repr

/-- Routing of one decoded CDP TLV into the data unit's fields in the loop
of `cdp::DataUnit::decode` (duplicates overwrite, errors are logged and
dropped). -/
def DataUnit.applyTlv (du : DataUnit) (r : Except TlvDecodeError Tlv) : DataUnit :=
  match r with
  | .ok (.DeviceId x) => { du with device_id := some x }
  | .ok (.PortId x) => { du with port_id := some x }
  | .ok (.Platform x) => { du with platform := some x }
  | .ok (.SoftwareVersion x) => { du with software_version := some x }
  | .ok (.NativeVlan v) => { du with native_vlan := some v }
  | .ok (.Duplex d) => { du with duplex := some d }
  | .error _ => du

/-- Assembly errors of the CDP data unit (`cdp::DataUnitError`). -/
inductive DataUnitError where
  | BufferTooShort
  | UnknownCdpVersion (v : Nat)
  | RawTlvError (e : RawTlvError)
deriving DecidableEq, Repr

/-- TLV loop of `cdp::DataUnit::decode`: frame TLVs until the buffer is
exhausted, a framing error is fatal, a panic (`none`) propagates. -/
def DataUnit.decodeTlvs (du : DataUnit) :
    (buf : List Nat) → Option (Except DataUnitError DataUnit)
  | [] => some (.ok du)
  | b0 :: rest =>
    match RawTlv.decode (b0 :: rest) with
    | none => none
    | some (.error e) => some (.error (.RawTlvError e))
    | some (.ok raw) =>
      DataUnit.decodeTlvs (du.applyTlv (Tlv.decode raw)) ((b0 :: rest).drop raw.totalLen)
termination_by buf => buf.length
decreasing_by simp [RawTlv.totalLen, List.length_drop]; omega

/-- Byte-level CDP data-unit decode (`cdp::DataUnit::decode`): a four-byte
header (version byte that must be 2, TTL byte, unchecked checksum word)
followed by the TLV loop; `none` is a panic inside the loop. -/
def DataUnit.decode (buf : List Nat) : Option (Except DataUnitError DataUnit) :=
  match buf with
  | version :: ttl :: _ck1 :: _ck2 :: rest =>
    if version ≠ 2 then some (.error (.UnknownCdpVersion version))
    else
      match DataUnit.decodeTlvs { time_to_live := ttl } rest with
      | none => none
      | some (.ok du) => some (.ok du)
      | some (.error e) => some (.error e)
  | _ => some (.error .BufferTooShort)

end Cdp


/-!
Neighbor liveness table, from `Interface::insert_du` in `src/src/lib.rs`:
an update removes any existing entry for the key, best-effort aborts that
entry's pending expiry task, spawns a fresh expiry task, and inserts a
fresh entry carrying the new task's handle; the expiry task, once its delay
has elapsed, removes the entry for its key unconditionally
(`interface.inner.neighbors.write().await.remove(&key_clone)`).

Modelled from the spec: the task-scheduling and cancellation semantics
(spec section 5) — all table mutations serialize under one lock; aborting a
task reliably prevents it from running only if it has not yet started, and
gives no guarantee against a task that has already begun acquiring the
lock.  A task is `Sleeping` during its TTL delay (abortable), `Acquiring`
once the delay elapsed and it contends for the lock (no longer reliably
abortable), and `Finished` after its removal ran.  Data units and keys are
abstracted to numeric identifiers; detection timestamps are omitted.
-/

/-- Lifecycle state of a spawned expiry task. -/
inductive TimerStatus where
  | Sleeping
  | Acquiring
  | Finished
  | Aborted
deriving DecidableEq, Repr

/-- One spawned expiry task: the key it will remove and its state. -/
structure TimerTask where
  key : Nat
  status : TimerStatus
deriving DecidableEq, Repr

/-- One table entry (`Neighbor`): the stored data unit and the handle
(index) of the expiry task spawned for it. -/
structure NeighborEntry where
  du : Nat
  timer : Nat
deriving DecidableEq, Repr

/-- State of one interface's neighbor table plus its spawned expiry tasks
(task handle = index into `timers`). -/
structure TableState where
  table : List (Nat × NeighborEntry) := []
  timers : List TimerTask := []
deriving DecidableEq, Repr

/-- Lookup of a table entry by key (`HashMap` lookup). -/
def lookupEntry (t : List (Nat × NeighborEntry)) (k : Nat) : Option NeighborEntry :=
  (t.find? (fun p => p.1 = k)).map (·.2)

/-- Removal of a table entry by key (`HashMap::remove`). -/
def removeEntry (t : List (Nat × NeighborEntry)) (k : Nat) : List (Nat × NeighborEntry) :=
  t.filter (fun p => p.1 ≠ k)

/-- Apply a function to the timer at the given handle, if any. -/
def updateTimer (timers : List TimerTask) (i : Nat) (f : TimerTask → TimerTask) :
    List TimerTask :=
  match timers[i]? with
  | some t => timers.set i (f t)
  | none => timers

/-- Best-effort abort (`AbortHandle::abort`): reliably stops a task still
sleeping in its TTL delay; a task already acquiring the lock is unaffected. -/
def abortTimer (timers : List TimerTask) (i : Nat) : List TimerTask :=
  updateTimer timers i (fun t => if t.status = .Sleeping then { t with status := .Aborted } else t)

/-- Update of the table for one arriving data unit (`Interface::insert_du`):
remove the existing entry (aborting its expiry task best-effort), spawn a
fresh expiry task, insert the fresh entry with the new task's handle. -/
def insertDu (s : TableState) (k du : Nat) : TableState :=
  let timers :=
    (match lookupEntry s.table k with
     | some e => abortTimer s.timers e.timer
     | none => s.timers)
  { table := (k, ⟨du, timers.length⟩) :: removeEntry s.table k,
    timers := timers ++ [⟨k, .Sleeping⟩] }

/-- TTL delay of the expiry task elapses: the task wakes and begins
acquiring the table lock (past the point where abort reliably stops it). -/
def elapseTimer (s : TableState) (i : Nat) : TableState :=
  { s with timers :=
      (updateTimer s.timers i
        (fun t => if t.status = .Sleeping then { t with status := .Acquiring } else t)) }

/-- The woken expiry task acquires the lock and runs: it removes the table
entry for its key unconditionally (source line
`interface.inner.neighbors.write().await.remove(&key_clone)`). -/
def fireTimer (s : TableState) (i : Nat) : TableState :=
  match s.timers[i]? with
  | some t =>
    if t.status = .Acquiring then
      { table := removeEntry s.table t.key,
        timers := updateTimer s.timers i (fun u => { u with status := .Finished }) }
    else s
  | none => s

/-- Serialized table events: an update for a key, or an expiry task's delay
elapsing, or a woken expiry task running its removal. -/
inductive TableAction where
  | Update (k du : Nat)
  | Elapse (i : Nat)
  | Fire (i : Nat)
deriving DecidableEq, Repr

/-- One serialized table transition. -/
def tableStep (s : TableState) (a : TableAction) : TableState :=
  match a with
  | .Update k du => insertDu s k du
  | .Elapse i => elapseTimer s i
  | .Fire i => fireTimer s i

/-- Run a serialized sequence of table events from the empty table. -/
def runTable (acts : List TableAction) : TableState :=
  acts.foldl tableStep {}


/-- Decidable equality of `Except` results (both components decidable). -/
instance {e a : Type} [DecidableEq e] [DecidableEq a] : DecidableEq (Except e a) :=
  fun x y =>
    match x, y with
    | .ok u, .ok v =>
      if h : u = v then isTrue (by rw [h])
      else isFalse (fun hh => h (by cases hh; rfl))
    | .error u, .error v =>
      if h : u = v then isTrue (by rw [h])
      else isFalse (fun hh => h (by cases hh; rfl))
    | .ok _, .error _ => isFalse (fun hh => by cases hh)
    | .error _, .ok _ => isFalse (fun hh => by cases hh)

/-- Chassis id carried by a TLV, if any (projection used to state the
duplicate-field policy). -/
def tlvChassisId : Tlv → Option ChassisId
  | .ChassisId c => some c
  | _ => none

/-- Port id carried by a TLV, if any. -/
def tlvPortId : Tlv → Option PortId
  | .PortId p => some p
  | _ => none

/-- Time-to-live carried by a TLV, if any. -/
def tlvTimeToLive : Tlv → Option Nat
  | .TimeToLive t => some t
  | _ => none

/-- Port description carried by a TLV, if any. -/
def tlvPortDescription : Tlv → Option (List Nat)
  | .PortDescription x => some x
  | _ => none

/-- System name carried by a TLV, if any. -/
def tlvSystemName : Tlv → Option (List Nat)
  | .SystemName x => some x
  | _ => none

/-- System description carried by a TLV, if any. -/
def tlvSystemDescription : Tlv → Option (List Nat)
  | .SystemDescription x => some x
  | _ => none

/-- Capabilities carried by a TLV, if any. -/
def tlvCapabilities : Tlv → Option Capabilities
  | .Capabilities c => some c
  | _ => none

/-- Dot1 port VLAN id carried by a TLV, if any. -/
def tlvPortVlanId : Tlv → Option Nat
  | .Org (.Dot1 (.PortVlanId v)) => some v
  | _ => none

/-- Dot3 MAC/PHY status carried by a TLV, if any. -/
def tlvMacPhyStatus : Tlv → Option MacPhyStatus
  | .Org (.Dot3 (.MacPhyStatus s)) => some s
  | _ => none


/-- Condition on a dot3 MacPhyStatus body excluding the MAU wire code the
conversion table cannot re-encode (8 comes back as 9). -/
def dot3MauOk (buf : List Nat) : Bool :=
  match buf with
  | [_, _, _, m1, m2] => be16 m1 m2 != 8
  | _ => true

/-- Condition on a chassis id payload: textual subtypes carry valid UTF-8. -/
def chassisTextOk : List Nat → Bool
  | s :: rest =>
    if s = 1 || s = 2 || s = 3 || s = 6 || s = 7 then validUtf8 rest else true
  | [] => true

/-- Condition on a port id payload: textual subtypes carry valid UTF-8. -/
def portTextOk : List Nat → Bool
  | s :: rest =>
    if s = 1 || s = 2 || s = 5 || s = 7 then validUtf8 rest else true
  | [] => true

/-- Condition on a management address payload: the OID bytes are valid
UTF-8. -/
def mgmtOidOk : List Nat → Bool
  | b0 :: rest => validUtf8 ((rest.drop b0).drop 6)
  | [] => true

/-- Condition on an org TLV payload: a dot1 VLAN name is valid UTF-8 and a
dot3 MAC/PHY status has a re-encodable MAU code. -/
def orgOk : List Nat → Bool
  | o1 :: o2 :: o3 :: s :: rest =>
    if [o1, o2, o3] = dot1OUI then
      if s = 3 then validUtf8 (rest.drop 3) else true
    else if [o1, o2, o3] = dot3OUI then
      if s = 1 then dot3MauOk rest
      else true
    else true
  | _ => true

/-- Side condition of the amended re-encode law (C3): inputs whose decoded
value re-encodes to the original bytes.  It excludes exactly the inputs the
codec normalises: a non-empty End payload (accepted up to two bytes but
re-encoded empty), text fields that are not valid UTF-8 (decoded lossily),
and a dot3 MAC/PHY MAU wire code 8 (re-encoded as 9 by the source's
conversion table). -/
def reencodable (ty : Nat) (payload : List Nat) : Bool :=
  if ty = 0 then payload.isEmpty
  else if ty = 1 then chassisTextOk payload
  else if ty = 2 then portTextOk payload
  else if ty = 4 || ty = 5 || ty = 6 then validUtf8 payload
  else if ty = 8 then mgmtOidOk payload
  else if ty = 127 then orgOk payload
  else true

/-! ## Theorems -/

theorem utf8Lossy_nil : utf8Lossy [] = [] := by rw [utf8Lossy]

theorem utf8Lossy_chunk (b0 : Nat) (rest : List Nat) :
    utf8Lossy (b0 :: rest) =
      (utf8Chunk (b0 :: rest)).1 ++ utf8Lossy (utf8Chunk (b0 :: rest)).2 := by
  rw [utf8Lossy]

theorem validUtf8_nil : validUtf8 [] = true := by rw [validUtf8]

theorem validUtf8_cons (b0 : Nat) (rest : List Nat) :
    validUtf8 (b0 :: rest) =
      (utf8HeadOk (b0 :: rest) && validUtf8 (utf8Chunk (b0 :: rest)).2) := by
  rw [validUtf8]

theorem utf8Chunk_append (b0 : Nat) (rest : List Nat)
    (h : utf8HeadOk (b0 :: rest) = true) :
    (utf8Chunk (b0 :: rest)).1 ++ (utf8Chunk (b0 :: rest)).2 = b0 :: rest := by
  unfold utf8HeadOk at h
  by_cases h1 : b0 < 0x80
  · simp [utf8Chunk, h1]
  · simp only [if_neg h1] at h
    by_cases h2 : (0xC2 ≤ b0 && b0 ≤ 0xDF) = true
    · simp only [if_pos h2] at h
      cases rest with
      | nil => simp at h
      | cons b1 rest2 =>
        simp only at h
        simp [utf8Chunk, h1, h2, h]
    · simp only [if_neg h2] at h
      by_cases h3 : (0xE0 ≤ b0 && b0 ≤ 0xEF) = true
      · simp only [if_pos h3] at h
        cases rest with
        | nil => simp at h
        | cons b1 rest2 =>
          cases rest2 with
          | nil => simp at h
          | cons b2 rest3 =>
            simp only [Bool.and_eq_true] at h
            simp [utf8Chunk, h1, h2, h3, h.1, h.2]
      · simp only [if_neg h3] at h
        by_cases h4 : (0xF0 ≤ b0 && b0 ≤ 0xF4) = true
        · simp only [if_pos h4] at h
          cases rest with
          | nil => simp at h
          | cons b1 rest2 =>
            cases rest2 with
            | nil => simp at h
            | cons b2 rest3 =>
              cases rest3 with
              | nil => simp at h
              | cons b3 rest4 =>
                simp only [Bool.and_eq_true] at h
                simp [utf8Chunk, h1, h2, h3, h4, h.1.1, h.1.2, h.2]
        · simp only [if_neg h4] at h
          simp at h

theorem utf8Lossy_of_valid_aux :
    ∀ n, ∀ l : List Nat, l.length ≤ n → validUtf8 l = true → utf8Lossy l = l := by
  intro n
  induction n with
  | zero =>
    intro l hl _
    have : l = [] := List.length_eq_zero.mp (Nat.le_zero.mp hl)
    subst this
    exact utf8Lossy_nil
  | succ n ih =>
    intro l hl hv
    cases l with
    | nil => exact utf8Lossy_nil
    | cons b0 rest =>
      rw [validUtf8_cons] at hv
      simp only [Bool.and_eq_true] at hv
      rw [utf8Lossy_chunk]
      have hlen : (utf8Chunk (b0 :: rest)).2.length < (b0 :: rest).length :=
        of_eq_true (utf8ChunkShrinks b0 rest)
      rw [ih _ (by simp only [List.length_cons] at hl hlen ⊢; omega) hv.2]
      exact utf8Chunk_append _ _ hv.1

theorem utf8Lossy_of_valid (l : List Nat) (h : validUtf8 l = true) : utf8Lossy l = l :=
  utf8Lossy_of_valid_aux l.length l le_rfl h

theorem utf8Lossy_ff : utf8Lossy [0xFF] = [0xEF, 0xBF, 0xBD] := by
  rw [utf8Lossy_chunk]
  norm_num [utf8Chunk, utf8Rep, utf8Lossy_nil]

theorem utf8_eth0 : validUtf8 [101, 116, 104, 48] = true := by
  rw [validUtf8_cons]
  norm_num [utf8Chunk, utf8HeadOk]
  rw [validUtf8_cons]
  norm_num [utf8Chunk, utf8HeadOk]
  rw [validUtf8_cons]
  norm_num [utf8Chunk, utf8HeadOk]
  rw [validUtf8_cons]
  norm_num [utf8Chunk, utf8HeadOk]
  exact validUtf8_nil

/-- Claim C1: the spec requires that a scheduled expiry only remove the
entry it was scheduled for, so that an update racing with an expiry never
leaves an empty table.  The source's expiry task removes its key
unconditionally, so the interleaving "update; TTL elapses and the expiry
task starts; second update for the same key (abort arrives too late);
expiry removal runs" deletes the entry the second update just inserted:
after the first three events the entry holds the later data unit, after the
expiry fires the table has no entry for the key. -/
theorem c1_expiry_race_removes_refreshed_entry :
    lookupEntry (runTable [.Update 7 1, .Elapse 0, .Update 7 2]).table 7 =
      some ⟨2, 1⟩ ∧
    lookupEntry (runTable [.Update 7 1, .Elapse 0, .Update 7 2, .Fire 0]).table 7 =
      none := by
  decide

/-- Claim C2: `decode (encode v) = v` fails at the constructible dot3
MAC/PHY value whose MAU type is `B10BaseFL`: the source's
`From<MauType> for u16` maps `B10BaseFL` to 9 (the code of `B10Broad36`,
instead of 8), so the round trip returns a different MAU type. -/
theorem c2_mau_b10basefl_roundtrip_fails :
    OrgTlv.decode (OrgTlv.encode (.Dot3 (.MacPhyStatus ⟨2, 5, .B10BaseFL⟩))) =
      .ok (.Dot3 (.MacPhyStatus ⟨2, 5, .B10Broad36⟩)) ∧
    MauType.B10Broad36 ≠ MauType.B10BaseFL := by
  exact ⟨rfl, fun hh => MauType.noConfusion hh⟩

/-- Claim C4: CDP TLV framing is not total.  On the four-byte buffer
`[0, 1, 0, 5]` (type 1, declared total length 5) the guard `buf.len() < len`
passes (4 < 1 is false) but the payload slice `buf[4..5]` is out of range,
a Rust panic (`none` in the model).  With a declared total length below 4
(wrapping subtraction as in release builds) the function does return the
`BufferTooShort` framing error. -/
theorem c4_cdp_framing_panics :
    Cdp.RawTlv.decode [0, 1, 0, 5] = none ∧
    Cdp.RawTlv.decode [0, 1, 0, 3, 0] = some (.error .BufferTooShort) := by
  exact ⟨rfl, rfl⟩

/-- Claim C5: the source accepts End-of-LLDPDU payloads of length one and
two (its check is `payload.len() > 2`, a payload/total-length mix-up), so a
non-empty End payload does not always produce the `BytesAfterEnd` error the
spec requires: payloads of one and two bytes decode to `End`, the error
only appears from three bytes up. -/
theorem c5_end_nonempty_payload_accepted :
    Tlv.decode ⟨0, [0xAA]⟩ = .ok .End ∧
    Tlv.decode ⟨0, [0xAA, 0xBB]⟩ = .ok .End ∧
    Tlv.decode ⟨0, [1, 2, 3]⟩ = .error .BytesAfterEnd := by
  exact ⟨rfl, rfl, rfl⟩

/-- Claim C10: `to_static` is not the identity on content: the
`InterfaceName` arm of `ChassisId::to_static` (both snapshots) rebuilds an
`InterfaceAlias`, so the variant and its `kind()` change while the text is
kept. -/
theorem c10_to_static_changes_interface_name :
    ChassisId.toStatic (.InterfaceName [101, 116, 104, 48]) =
      .InterfaceAlias [101, 116, 104, 48] ∧
    (ChassisId.toStatic (.InterfaceName [101, 116, 104, 48])).kind = .IfAlias ∧
    ChassisIdKind.IfAlias ≠ ChassisIdKind.IfName := by
  decide

/-- Claim C6: LLDP TLV framing reads the first two bytes as a big-endian
16-bit word whose top seven bits are the type and whose low nine bits are
the payload length; exactly that many following bytes form the payload when
the buffer holds them, else the fatal `BufferTooShort` framing error. -/
theorem c6_lldp_framing (b0 b1 : Nat) (rest : List Nat)
    (hb0 : b0 < 256) (hb1 : b1 < 256) :
    RawTlv.decode (b0 :: b1 :: rest) =
      if be16 b0 b1 % 512 ≤ rest.length then
        .ok ⟨be16 b0 b1 / 512, rest.take (be16 b0 b1 % 512)⟩
      else .error .BufferTooShort := by
  have h1 : be16 b0 b1 % 512 = b0 % 2 * 256 + b1 := by
    simp only [be16]; omega
  have h2 : be16 b0 b1 / 512 = b0 / 2 := by
    clear hb0
    simp only [be16]; omega
  rw [RawTlv.decode, h1, h2]
  by_cases hc : rest.length < b0 % 2 * 256 + b1
  · rw [if_pos hc, if_neg (by omega)]
  · rw [if_neg hc, if_pos (by omega)]

/-- Witness for C6: the buffer `[2, 3, 9, 8, 7]` frames as type 1 with the
three-byte payload `[9, 8, 7]`. -/
theorem c6_lldp_framing_witness :
    RawTlv.decode [2, 3, 9, 8, 7] = .ok ⟨1, [9, 8, 7]⟩ := by
  have h := c6_lldp_framing 2 3 [9, 8, 7] (by decide) (by decide)
  simpa using h

/-- Claim C9: the CDP header gate: a payload shorter than four bytes fails
with `BufferTooShort`, and any payload of at least four bytes whose version
byte is not 2 fails with `UnknownCdpVersion` carrying that byte, regardless
of the remaining content. -/
theorem c9_cdp_version_gate :
    (∀ buf : List Nat, buf.length < 4 →
      Cdp.DataUnit.decode buf = some (.error .BufferTooShort)) ∧
    (∀ v t c1 c2 : Nat, ∀ rest : List Nat, v ≠ 2 →
      Cdp.DataUnit.decode (v :: t :: c1 :: c2 :: rest) =
        some (.error (.UnknownCdpVersion v))) := by
  constructor
  · intro buf h
    match buf with
    | [] => rfl
    | [_] => rfl
    | [_, _] => rfl
    | [_, _, _] => rfl
    | _ :: _ :: _ :: _ :: _ => simp at h; omega
  · intro v t c1 c2 rest h
    simp [Cdp.DataUnit.decode, h]

/-- Witness for C9: a three-byte payload is too short, and version byte 3
with arbitrary trailing content is rejected as `UnknownCdpVersion 3`. -/
theorem c9_cdp_version_gate_witness :
    Cdp.DataUnit.decode [2, 0, 0] = some (.error .BufferTooShort) ∧
    Cdp.DataUnit.decode [3, 120, 0, 0, 77, 88] =
      some (.error (.UnknownCdpVersion 3)) :=
  ⟨c9_cdp_version_gate.1 [2, 0, 0] (by decide),
   c9_cdp_version_gate.2 3 120 0 0 [77, 88] (by decide)⟩

theorem getLast?_cons_or {α : Type} (a : α) (l : List α) :
    (a :: l).getLast? = l.getLast?.or (some a) := by
  induction l generalizing a with
  | nil => rfl
  | cons b l2 ih =>
    rw [List.getLast?_cons_cons, ih b]
    rcases l2.getLast? with _ | x <;> rfl

theorem foldl_last_wins {α : Type} (π : AssembleAcc → Option α) (f : Tlv → Option α)
    (hstep : ∀ acc t, π (assembleStep acc t) = (f t).or (π acc)) :
    ∀ (l : List Tlv) (acc : AssembleAcc),
      π (l.foldl assembleStep acc) = ((l.filterMap f).getLast?).or (π acc) := by
  intro l
  induction l with
  | nil => intro acc; simp
  | cons t l ih =>
    intro acc
    rw [List.foldl_cons, ih, hstep, List.filterMap_cons]
    cases hft : f t with
    | none => simp
    | some v =>
      simp only
      rw [getLast?_cons_or, Option.or_assoc]

theorem step_chassis : ∀ (acc : AssembleAcc) (t : Tlv),
    (assembleStep acc t).chassis_id = (tlvChassisId t).or acc.chassis_id := by
  intro acc t
  cases t with
  | Org o => cases o with
    | Dot1 t => cases t <;> rfl
    | Dot3 t => cases t; rfl
    | Custom _ _ _ => rfl
  | _ => rfl

theorem step_port : ∀ (acc : AssembleAcc) (t : Tlv),
    (assembleStep acc t).port_id = (tlvPortId t).or acc.port_id := by
  intro acc t
  cases t with
  | Org o => cases o with
    | Dot1 t => cases t <;> rfl
    | Dot3 t => cases t; rfl
    | Custom _ _ _ => rfl
  | _ => rfl

theorem step_ttl : ∀ (acc : AssembleAcc) (t : Tlv),
    (assembleStep acc t).time_to_live = (tlvTimeToLive t).or acc.time_to_live := by
  intro acc t
  cases t with
  | Org o => cases o with
    | Dot1 t => cases t <;> rfl
    | Dot3 t => cases t; rfl
    | Custom _ _ _ => rfl
  | _ => rfl

theorem step_port_descr : ∀ (acc : AssembleAcc) (t : Tlv),
    (assembleStep acc t).port_description = (tlvPortDescription t).or acc.port_description := by
  intro acc t
  cases t with
  | Org o => cases o with
    | Dot1 t => cases t <;> rfl
    | Dot3 t => cases t; rfl
    | Custom _ _ _ => rfl
  | _ => rfl

theorem step_sys_name : ∀ (acc : AssembleAcc) (t : Tlv),
    (assembleStep acc t).system_name = (tlvSystemName t).or acc.system_name := by
  intro acc t
  cases t with
  | Org o => cases o with
    | Dot1 t => cases t <;> rfl
    | Dot3 t => cases t; rfl
    | Custom _ _ _ => rfl
  | _ => rfl

theorem step_sys_descr : ∀ (acc : AssembleAcc) (t : Tlv),
    (assembleStep acc t).system_description =
      (tlvSystemDescription t).or acc.system_description := by
  intro acc t
  cases t with
  | Org o => cases o with
    | Dot1 t => cases t <;> rfl
    | Dot3 t => cases t; rfl
    | Custom _ _ _ => rfl
  | _ => rfl

theorem step_caps : ∀ (acc : AssembleAcc) (t : Tlv),
    (assembleStep acc t).capabilities = (tlvCapabilities t).or acc.capabilities := by
  intro acc t
  cases t with
  | Org o => cases o with
    | Dot1 t => cases t <;> rfl
    | Dot3 t => cases t; rfl
    | Custom _ _ _ => rfl
  | _ => rfl

theorem step_pvid : ∀ (acc : AssembleAcc) (t : Tlv),
    (assembleStep acc t).org.dot1.port_vlan_id =
      (tlvPortVlanId t).or acc.org.dot1.port_vlan_id := by
  intro acc t
  cases t with
  | Org o => cases o with
    | Dot1 t => cases t <;> rfl
    | Dot3 t => cases t; rfl
    | Custom _ _ _ => rfl
  | _ => rfl

theorem step_macphy : ∀ (acc : AssembleAcc) (t : Tlv),
    (assembleStep acc t).org.dot3.mac_phy_status =
      (tlvMacPhyStatus t).or acc.org.dot3.mac_phy_status := by
  intro acc t
  cases t with
  | Org o => cases o with
    | Dot1 t => cases t <;> rfl
    | Dot3 t => cases t; rfl
    | Custom _ _ _ => rfl
  | _ => rfl

/-- Claim C7: data-unit assembly is last-write-wins on every single-valued
field: each assembled field equals the value of the last TLV of its kind in
the sequence (so with two `SystemName` TLVs the data unit holds the second
occurrence's value), and likewise for chassis id, port id, TTL, port
description, system description, capabilities, port VLAN id, and MAC/PHY
status. -/
theorem c7_assembly_last_write_wins (tlvs : List Tlv) (du : DataUnit)
    (h : assemble tlvs = .ok du) :
    some du.chassis_id = (tlvs.filterMap tlvChassisId).getLast? ∧
    some du.port_id = (tlvs.filterMap tlvPortId).getLast? ∧
    some du.time_to_live = (tlvs.filterMap tlvTimeToLive).getLast? ∧
    du.port_description = (tlvs.filterMap tlvPortDescription).getLast? ∧
    du.system_name = (tlvs.filterMap tlvSystemName).getLast? ∧
    du.system_description = (tlvs.filterMap tlvSystemDescription).getLast? ∧
    du.capabilities = (tlvs.filterMap tlvCapabilities).getLast? ∧
    du.org.dot1.port_vlan_id = (tlvs.filterMap tlvPortVlanId).getLast? ∧
    du.org.dot3.mac_phy_status = (tlvs.filterMap tlvMacPhyStatus).getLast? := by
  have hc : (List.foldl assembleStep {} tlvs).chassis_id =
      (tlvs.filterMap tlvChassisId).getLast? := by
    simpa using foldl_last_wins (fun acc => acc.chassis_id) tlvChassisId step_chassis tlvs {}
  have hp : (List.foldl assembleStep {} tlvs).port_id =
      (tlvs.filterMap tlvPortId).getLast? := by
    simpa using foldl_last_wins (fun acc => acc.port_id) tlvPortId step_port tlvs {}
  have ht : (List.foldl assembleStep {} tlvs).time_to_live =
      (tlvs.filterMap tlvTimeToLive).getLast? := by
    simpa using foldl_last_wins (fun acc => acc.time_to_live) tlvTimeToLive step_ttl tlvs {}
  have hpd : (List.foldl assembleStep {} tlvs).port_description =
      (tlvs.filterMap tlvPortDescription).getLast? := by
    simpa using foldl_last_wins (fun acc => acc.port_description) tlvPortDescription
      step_port_descr tlvs {}
  have hsn : (List.foldl assembleStep {} tlvs).system_name =
      (tlvs.filterMap tlvSystemName).getLast? := by
    simpa using foldl_last_wins (fun acc => acc.system_name) tlvSystemName step_sys_name tlvs {}
  have hsd : (List.foldl assembleStep {} tlvs).system_description =
      (tlvs.filterMap tlvSystemDescription).getLast? := by
    simpa using foldl_last_wins (fun acc => acc.system_description) tlvSystemDescription
      step_sys_descr tlvs {}
  have hcap : (List.foldl assembleStep {} tlvs).capabilities =
      (tlvs.filterMap tlvCapabilities).getLast? := by
    simpa using foldl_last_wins (fun acc => acc.capabilities) tlvCapabilities step_caps tlvs {}
  have hv : (List.foldl assembleStep {} tlvs).org.dot1.port_vlan_id =
      (tlvs.filterMap tlvPortVlanId).getLast? := by
    simpa using foldl_last_wins (fun acc => acc.org.dot1.port_vlan_id) tlvPortVlanId
      step_pvid tlvs {}
  have hm : (List.foldl assembleStep {} tlvs).org.dot3.mac_phy_status =
      (tlvs.filterMap tlvMacPhyStatus).getLast? := by
    simpa using foldl_last_wins (fun acc => acc.org.dot3.mac_phy_status) tlvMacPhyStatus
      step_macphy tlvs {}
  simp only [assemble] at h
  split at h
  · exact absurd h (by simp)
  case _ c heqc =>
    split at h
    · exact absurd h (by simp)
    case _ p heqp =>
      split at h
      · exact absurd h (by simp)
      case _ ttl heqt =>
        cases h
        dsimp only
        refine ⟨?_, ?_, ?_, ?_, ?_, ?_, ?_, ?_, ?_⟩
        · rw [← heqc]; exact hc
        · rw [← heqp]; exact hp
        · rw [← heqt]; exact ht
        · exact hpd
        · exact hsn
        · exact hsd
        · exact hcap
        · exact hv
        · exact hm

/-- Witness for C7: assembling mandatory fields plus `SystemName [97]` then
`SystemName [98]` yields a data unit whose system name is the second
occurrence's value `[98]`. -/
theorem c7_assembly_last_write_wins_witness :
    (assemble [Tlv.ChassisId (.MacAddress [1, 2, 3, 4, 5, 6]),
        Tlv.PortId (.InterfaceName [65]), Tlv.TimeToLive 120,
        Tlv.SystemName [97], Tlv.SystemName [98]]).map DataUnit.system_name =
      .ok (some [98]) := by
  cases hA : assemble [Tlv.ChassisId (.MacAddress [1, 2, 3, 4, 5, 6]),
      Tlv.PortId (.InterfaceName [65]), Tlv.TimeToLive 120,
      Tlv.SystemName [97], Tlv.SystemName [98]] with
  | error e =>
    have hok : assemble [Tlv.ChassisId (.MacAddress [1, 2, 3, 4, 5, 6]),
        Tlv.PortId (.InterfaceName [65]), Tlv.TimeToLive 120,
        Tlv.SystemName [97], Tlv.SystemName [98]] = Except.ok
      { chassis_id := .MacAddress [1, 2, 3, 4, 5, 6],
        port_id := .InterfaceName [65], time_to_live := 120,
        port_description := none, system_name := some [98],
        system_description := none, capabilities := none,
        management_address := [], org := {} } := rfl
    rw [hA] at hok
    cases hok
  | ok du =>
    have h2 := (c7_assembly_last_write_wins _ du hA).2.2.2.2.1
    simp only [Except.map]
    rw [h2]
    decide

/-- Claim C8: assembly fails fatally on a missing mandatory field: no
chassis id TLV gives `MissingChassisId`; a chassis id but no port id gives
`MissingPortId`; chassis and port ids but no TTL gives `MissingTimeToLive`.
Each failure is an `error` result, so no partial data unit is returned. -/
theorem c8_assembly_missing_mandatory (tlvs : List Tlv) :
    (tlvs.filterMap tlvChassisId = [] →
      assemble tlvs = .error .MissingChassisId) ∧
    (tlvs.filterMap tlvChassisId ≠ [] → tlvs.filterMap tlvPortId = [] →
      assemble tlvs = .error .MissingPortId) ∧
    (tlvs.filterMap tlvChassisId ≠ [] → tlvs.filterMap tlvPortId ≠ [] →
      tlvs.filterMap tlvTimeToLive = [] →
      assemble tlvs = .error .MissingTimeToLive) := by
  have hc : (List.foldl assembleStep {} tlvs).chassis_id =
      (tlvs.filterMap tlvChassisId).getLast? := by
    simpa using foldl_last_wins (fun acc => acc.chassis_id) tlvChassisId step_chassis tlvs {}
  have hp : (List.foldl assembleStep {} tlvs).port_id =
      (tlvs.filterMap tlvPortId).getLast? := by
    simpa using foldl_last_wins (fun acc => acc.port_id) tlvPortId step_port tlvs {}
  have ht : (List.foldl assembleStep {} tlvs).time_to_live =
      (tlvs.filterMap tlvTimeToLive).getLast? := by
    simpa using foldl_last_wins (fun acc => acc.time_to_live) tlvTimeToLive step_ttl tlvs {}
  refine ⟨?_, ?_, ?_⟩
  · intro h1
    rw [assemble.eq_def]
    simp only
    rw [hc, List.getLast?_eq_none_iff.mpr h1]
  · intro h1 h2
    obtain ⟨c, hcs⟩ : ∃ c, (tlvs.filterMap tlvChassisId).getLast? = some c := by
      cases hx : (tlvs.filterMap tlvChassisId).getLast? with
      | none => exact absurd (List.getLast?_eq_none_iff.mp hx) h1
      | some c => exact ⟨c, rfl⟩
    rw [assemble.eq_def]
    simp only
    rw [hc, hcs, hp, List.getLast?_eq_none_iff.mpr h2]
  · intro h1 h2 h3
    obtain ⟨c, hcs⟩ : ∃ c, (tlvs.filterMap tlvChassisId).getLast? = some c := by
      cases hx : (tlvs.filterMap tlvChassisId).getLast? with
      | none => exact absurd (List.getLast?_eq_none_iff.mp hx) h1
      | some c => exact ⟨c, rfl⟩
    obtain ⟨p, hps⟩ : ∃ p, (tlvs.filterMap tlvPortId).getLast? = some p := by
      cases hx : (tlvs.filterMap tlvPortId).getLast? with
      | none => exact absurd (List.getLast?_eq_none_iff.mp hx) h2
      | some p => exact ⟨p, rfl⟩
    rw [assemble.eq_def]
    simp only
    rw [hc, hcs, hp, hps, ht, List.getLast?_eq_none_iff.mpr h3]

/-- Witness for C8: three concrete sequences, each lacking exactly one
mandatory field, produce the three assembly errors. -/
theorem c8_assembly_missing_mandatory_witness :
    assemble [Tlv.PortId (.InterfaceName [65]), Tlv.TimeToLive 5] =
      .error .MissingChassisId ∧
    assemble [Tlv.ChassisId (.MacAddress [1, 2, 3, 4, 5, 6]), Tlv.TimeToLive 5] =
      .error .MissingPortId ∧
    assemble [Tlv.ChassisId (.MacAddress [1, 2, 3, 4, 5, 6]),
        Tlv.PortId (.InterfaceName [65])] =
      .error .MissingTimeToLive :=
  ⟨(c8_assembly_missing_mandatory _).1 (by decide),
   (c8_assembly_missing_mandatory _).2.1 (by decide) (by decide),
   (c8_assembly_missing_mandatory _).2.2 (by decide) (by decide) (by decide)⟩

theorem be16Bytes_be16 (a b : Nat) (ha : a < 256) (hb : b < 256) :
    be16Bytes (be16 a b) = [a, b] := by
  simp only [be16Bytes, be16, List.cons.injEq, and_true]
  omega

theorem le16Bytes_le16 (a b : Nat) (ha : a < 256) (hb : b < 256) :
    le16Bytes (le16 a b) = [a, b] := by
  simp only [le16Bytes, le16, List.cons.injEq, and_true]
  omega

theorem be32Bytes_be32 (a b c d : Nat)
    (ha : a < 256) (hb : b < 256) (hc : c < 256) (hd : d < 256) :
    be32Bytes (be32 a b c d) = [a, b, c, d] := by
  simp only [be32Bytes, be32, List.cons.injEq, and_true]
  omega

theorem bytesOk_mem {l : List Nat} {x : Nat} (h : bytesOk l = true) (hx : x ∈ l) :
    x < 256 := by
  simp only [bytesOk, List.all_eq_true, decide_eq_true_eq] at h
  exact h x hx

theorem bytesOk_take {l : List Nat} (n : Nat) (h : bytesOk l = true) :
    bytesOk (l.take n) = true := by
  simp only [bytesOk, List.all_eq_true, decide_eq_true_eq] at h ⊢
  exact fun x hx => h x (List.mem_of_mem_take hx)

theorem bytesOk_drop {l : List Nat} (n : Nat) (h : bytesOk l = true) :
    bytesOk (l.drop n) = true := by
  simp only [bytesOk, List.all_eq_true, decide_eq_true_eq] at h ⊢
  exact fun x hx => h x (List.mem_of_mem_drop hx)

theorem bytesOk_cons {a : Nat} {l : List Nat} (h : bytesOk (a :: l) = true) :
    a < 256 ∧ bytesOk l = true := by
  simp only [bytesOk, List.all_eq_true, decide_eq_true_eq] at h ⊢
  exact ⟨h a (by simp), fun x hx => h x (by simp [hx])⟩

theorem mau_toU16_fromU16 (n : Nat) (h : n ≠ 8) :
    (MauType.fromU16 n).toU16 = n := by
  rcases Nat.lt_or_ge n 54 with h54 | h54
  · interval_cases n <;> first | rfl | exact absurd rfl h
  · rw [MauType.fromU16.eq_def]
    repeat rw [if_neg (by omega)]
    rfl

theorem net_decode_encode {buf : List Nat} {a : NetworkAddress}
    (h : NetworkAddress.decode buf = .ok a) : a.encode = buf := by
  match buf with
  | [] => exact absurd h (by simp [NetworkAddress.decode])
  | st :: rest =>
    rw [NetworkAddress.decode.eq_def] at h
    simp only at h
    split at h
    · split at h
      · cases h; rfl
      · split at h <;> cases h
    · split at h
      · cases h
      · split at h
        · cases h
        · cases h; rfl
    · cases h
      rename_i hne1 hne2
      rfl

theorem net_decode_size {buf : List Nat} {a : NetworkAddress}
    (h : NetworkAddress.decode buf = .ok a) : a.encodedSize = buf.length := by
  have he := net_decode_encode h
  rw [← he]
  cases a with
  | Ip ip =>
    cases ip with
    | V4 x y z w => rfl
    | V6 bytes =>
      match buf, h with
      | st :: rest, h =>
        rw [NetworkAddress.decode.eq_def] at h
        simp only at h
        split at h
        · split at h
          · cases h
          · split at h <;> cases h
        · split at h
          · cases h
          · split at h
            · cases h
            · cases h
              rename_i hgt hlt
              simp only [NetworkAddress.encode, NetworkAddress.encodedSize,
                List.length_cons]
              omega
        · cases h
  | Other st data => simp [NetworkAddress.encode, NetworkAddress.encodedSize]; omega

theorem chassis_decode_encode {buf : List Nat} {c : ChassisId}
    (h : ChassisId.decode buf = .ok c)
    (hsafe : chassisTextOk buf = true) : c.encode = buf := by
  match buf with
  | [] => exact absurd h (by simp [ChassisId.decode])
  | s :: rest =>
    rw [ChassisId.decode.eq_def] at h
    simp only at h
    simp only [chassisTextOk] at hsafe
    split at h
    · cases h
      simp only [if_pos (by decide : (1 = 1 || 1 = 2 || 1 = 3 || 1 = 6 || 1 = 7) = true)] at hsafe
      simp [ChassisId.encode, ChassisId.kind, ChassisIdKind.toByte, utf8Lossy_of_valid _ hsafe]
    · cases h
      simp only [if_pos (by decide : (2 = 1 || 2 = 2 || 2 = 3 || 2 = 6 || 2 = 7) = true)] at hsafe
      simp [ChassisId.encode, ChassisId.kind, ChassisIdKind.toByte, utf8Lossy_of_valid _ hsafe]
    · cases h
      simp only [if_pos (by decide : (3 = 1 || 3 = 2 || 3 = 3 || 3 = 6 || 3 = 7) = true)] at hsafe
      simp [ChassisId.encode, ChassisId.kind, ChassisIdKind.toByte, utf8Lossy_of_valid _ hsafe]
    · cases h
      simp only [if_pos (by decide : (6 = 1 || 6 = 2 || 6 = 3 || 6 = 6 || 6 = 7) = true)] at hsafe
      simp [ChassisId.encode, ChassisId.kind, ChassisIdKind.toByte, utf8Lossy_of_valid _ hsafe]
    · cases h
      simp only [if_pos (by decide : (7 = 1 || 7 = 2 || 7 = 3 || 7 = 6 || 7 = 7) = true)] at hsafe
      simp [ChassisId.encode, ChassisId.kind, ChassisIdKind.toByte, utf8Lossy_of_valid _ hsafe]
    · split at h
      · cases h
        rename_i a heq
        simp [ChassisId.encode, ChassisId.kind, ChassisIdKind.toByte, net_decode_encode heq]
      · cases h
    · split at h
      · cases h
        simp [ChassisId.encode, ChassisId.kind, ChassisIdKind.toByte]
      · split at h <;> cases h
    · cases h

theorem port_decode_encode {buf : List Nat} {p : PortId}
    (h : PortId.decode buf = .ok p)
    (hsafe : portTextOk buf = true) : p.encode = buf := by
  match buf with
  | [] => exact absurd h (by simp [PortId.decode])
  | s :: rest =>
    rw [PortId.decode.eq_def] at h
    simp only at h
    simp only [portTextOk] at hsafe
    split at h
    · cases h
      simp only [if_pos (by decide : (5 = 1 || 5 = 2 || 5 = 5 || 5 = 7) = true)] at hsafe
      simp [PortId.encode, PortId.kind, PortIdKind.toByte, utf8Lossy_of_valid _ hsafe]
    · cases h
      simp only [if_pos (by decide : (1 = 1 || 1 = 2 || 1 = 5 || 1 = 7) = true)] at hsafe
      simp [PortId.encode, PortId.kind, PortIdKind.toByte, utf8Lossy_of_valid _ hsafe]
    · cases h
      simp only [if_pos (by decide : (2 = 1 || 2 = 2 || 2 = 5 || 2 = 7) = true)] at hsafe
      simp [PortId.encode, PortId.kind, PortIdKind.toByte, utf8Lossy_of_valid _ hsafe]
    · cases h
      simp only [if_pos (by decide : (7 = 1 || 7 = 2 || 7 = 5 || 7 = 7) = true)] at hsafe
      simp [PortId.encode, PortId.kind, PortIdKind.toByte, utf8Lossy_of_valid _ hsafe]
    · cases h
      simp [PortId.encode, PortId.kind, PortIdKind.toByte]
    · split at h
      · cases h
        rename_i a heq
        simp [PortId.encode, PortId.kind, PortIdKind.toByte, net_decode_encode heq]
      · cases h
    · split at h
      · cases h
        simp [PortId.encode, PortId.kind, PortIdKind.toByte]
      · split at h <;> cases h
    · cases h

theorem caps_decode_encode {buf : List Nat} {c : Capabilities}
    (h : Capabilities.decode buf = .ok c)
    (hB : bytesOk buf = true) : c.encode = buf := by
  rw [Capabilities.decode.eq_def] at h
  split at h
  · cases h
    rename_i a b cc d
    obtain ⟨ha, h2⟩ := bytesOk_cons hB
    obtain ⟨hb, h3⟩ := bytesOk_cons h2
    obtain ⟨hc, h4⟩ := bytesOk_cons h3
    obtain ⟨hd, _⟩ := bytesOk_cons h4
    simp [Capabilities.encode, be16Bytes_be16, ha, hb, hc, hd]
  · split at h <;> cases h

theorem dot1_decode_encode {s : Nat} {buf : List Nat} {t : Dot1Tlv}
    (h : Dot1Tlv.decode s buf = .ok t)
    (hname : s = 3 → validUtf8 (buf.drop 3) = true)
    (hB : bytesOk buf = true) : t.encode = s :: buf := by
  rw [Dot1Tlv.decode.eq_def] at h
  split at h
  · split at h
    · cases h
      rename_i a b
      obtain ⟨ha, h2⟩ := bytesOk_cons hB
      obtain ⟨hb, _⟩ := bytesOk_cons h2
      simp [Dot1Tlv.encode, be16Bytes_be16, ha, hb]
    · split at h <;> cases h
  · split at h
    · split at h
      · cases h
      · split at h
        · cases h
        · cases h
          rename_i v1 v2 nlen rest hgt hlt
          obtain ⟨hv1, h2⟩ := bytesOk_cons hB
          obtain ⟨hv2, h3⟩ := bytesOk_cons h2
          obtain ⟨hn, h4⟩ := bytesOk_cons h3
          have hval : validUtf8 rest = true := by
            have := hname rfl
            simpa using this
          have hlen : rest.length = nlen := by omega
          simp [Dot1Tlv.encode, be16Bytes_be16, hv1, hv2,
            utf8Lossy_of_valid _ hval, hlen, Nat.mod_eq_of_lt hn]
    · cases h
  · cases h

theorem dot3_decode_encode {s : Nat} {buf : List Nat} {t : Dot3Tlv}
    (h : Dot3Tlv.decode s buf = .ok t)
    (hmau : s = 1 → dot3MauOk buf = true)
    (hB : bytesOk buf = true) : t.encode = s :: buf := by
  rw [Dot3Tlv.decode.eq_def] at h
  split at h
  · split at h
    · cases h
      rename_i st a1 a2 m1 m2
      obtain ⟨hst, h2⟩ := bytesOk_cons hB
      obtain ⟨ha1, h3⟩ := bytesOk_cons h2
      obtain ⟨ha2, h4⟩ := bytesOk_cons h3
      obtain ⟨hm1, h5⟩ := bytesOk_cons h4
      obtain ⟨hm2, _⟩ := bytesOk_cons h5
      have hm : be16 m1 m2 ≠ 8 := by
        have := hmau rfl
        simpa [dot3MauOk] using this
      simp [Dot3Tlv.encode, le16Bytes_le16, ha1, ha2,
        mau_toU16_fromU16 _ hm, be16Bytes_be16, hm1, hm2]
    · split at h <;> cases h
  · cases h

theorem mgmtKind_toByte {st : Nat} {k : ManagementInterfaceKind}
    (h : ManagementInterfaceKind.fromByte st = some k) : k.toByte = st := by
  rw [ManagementInterfaceKind.fromByte.eq_def] at h
  split at h <;> cases h <;> rfl

theorem mgmt_decode_encode {buf : List Nat} {m : ManagementAddress}
    (h : ManagementAddress.decode buf = .ok m)
    (hsafe : mgmtOidOk buf = true)
    (hB : bytesOk buf = true) : m.encode = buf := by
  match buf with
  | [] => exact absurd h (by simp [ManagementAddress.decode])
  | b0 :: rest =>
    rw [ManagementAddress.decode.eq_def] at h
    simp only at h
    simp only [mgmtOidOk] at hsafe
    obtain ⟨hb0, hBrest⟩ := bytesOk_cons hB
    split at h
    · cases h
    · rename_i hge
      split at h
      · cases h
      · rename_i address heqA
        split at h
        · rename_i st n1 n2 n3 n4 olen oidBytes heqD
          split at h
          · cases h
          · rename_i k heqK
            split at h
            · cases h
            · split at h
              · cases h
              · cases h
                rename_i hgt hlt
                have hlen : oidBytes.length = olen := by omega
                have hDok : bytesOk (st :: n1 :: n2 :: n3 :: n4 :: olen :: oidBytes) = true := by
                  rw [← heqD]; exact bytesOk_drop _ hBrest
                obtain ⟨hst, hD2⟩ := bytesOk_cons hDok
                obtain ⟨hn1, hD3⟩ := bytesOk_cons hD2
                obtain ⟨hn2, hD4⟩ := bytesOk_cons hD3
                obtain ⟨hn3, hD5⟩ := bytesOk_cons hD4
                obtain ⟨hn4, hD6⟩ := bytesOk_cons hD5
                obtain ⟨holen, hDoid⟩ := bytesOk_cons hD6
                have hval : validUtf8 oidBytes = true := by
                  rw [heqD] at hsafe
                  simpa using hsafe
                have hA := net_decode_encode heqA
                have hS : address.encodedSize = b0 := by
                  rw [net_decode_size heqA, List.length_take]
                  omega
                have hsplit :
                    rest.take b0 ++ st :: n1 :: n2 :: n3 :: n4 :: olen :: oidBytes = rest := by
                  rw [← heqD]
                  exact List.take_append_drop b0 rest
                simp only [ManagementAddress.encode, hS, Nat.mod_eq_of_lt hb0, hA,
                  mgmtKind_toByte heqK, be32Bytes_be32 n1 n2 n3 n4 hn1 hn2 hn3 hn4,
                  utf8Lossy_of_valid _ hval, hlen, Nat.mod_eq_of_lt holen]
                simp only [List.cons_append, List.nil_append, List.cons.injEq, true_and]
                simpa using hsplit
        · cases h

theorem org_decode_encode {buf : List Nat} {o : OrgTlv}
    (h : OrgTlv.decode buf = .ok o)
    (hsafe : orgOk buf = true)
    (hB : bytesOk buf = true) : o.encode = buf := by
  match buf with
  | [] => exact absurd h (by simp [OrgTlv.decode])
  | [_] => exact absurd h (by simp [OrgTlv.decode])
  | [_, _] => exact absurd h (by simp [OrgTlv.decode])
  | [_, _, _] => exact absurd h (by simp [OrgTlv.decode])
  | o1 :: o2 :: o3 :: s :: rest =>
    rw [OrgTlv.decode.eq_def] at h
    simp only at h
    simp only [orgOk] at hsafe
    have hBrest : bytesOk rest = true := by
      have h1 := (bytesOk_cons hB).2
      have h2 := (bytesOk_cons h1).2
      have h3 := (bytesOk_cons h2).2
      exact (bytesOk_cons h3).2
    split at h
    · rename_i hcond
      rw [if_pos hcond] at hsafe
      split at h
      · cases h
        rename_i t heq
        have hname : s = 3 → validUtf8 (rest.drop 3) = true := by
          intro hs
          subst hs
          simpa using hsafe
        have := dot1_decode_encode heq hname hBrest
        simp only [OrgTlv.encode, OrgTlv.org, this]
        rw [← hcond]
        rfl
      · cases h
    · rename_i hcond1
      split at h
      · rename_i hcond
        rw [if_neg hcond1, if_pos hcond] at hsafe
        split at h
        · cases h
          rename_i t heq
          have hmau : s = 1 → dot3MauOk rest = true := by
            intro hs
            subst hs
            simpa using hsafe
          have := dot3_decode_encode heq hmau hBrest
          simp only [OrgTlv.encode, OrgTlv.org, this]
          rw [← hcond]
          rfl
        · cases h
      · cases h
        rename_i hcond2
        simp [OrgTlv.encode, OrgTlv.org]

theorem tlv_decode_payload_encode {ty : Nat} {p : List Nat} {t : Tlv}
    (h : Tlv.decode ⟨ty, p⟩ = .ok t)
    (hsafe : reencodable ty p = true)
    (hB : bytesOk p = true) :
    t.tyByte = ty ∧ t.encodePayload = p := by
  rw [Tlv.decode.eq_def] at h
  simp only at h
  split at h
  · split at h
    · cases h
    · cases h
      have hp : p = [] := by simpa [reencodable, List.isEmpty_iff] using hsafe
      subst hp
      exact ⟨rfl, rfl⟩
  · split at h
    · cases h
      rename_i c heq
      exact ⟨rfl, by simpa [Tlv.encodePayload] using
        chassis_decode_encode heq (by simpa [reencodable] using hsafe)⟩
    · cases h
  · split at h
    · cases h
      rename_i q heq
      exact ⟨rfl, by simpa [Tlv.encodePayload] using
        port_decode_encode heq (by simpa [reencodable] using hsafe)⟩
    · cases h
  · split at h
    · cases h
      rename_i a b
      obtain ⟨ha, h2⟩ := bytesOk_cons hB
      obtain ⟨hb, _⟩ := bytesOk_cons h2
      exact ⟨rfl, by simp [Tlv.encodePayload, be16Bytes_be16, ha, hb]⟩
    · split at h <;> cases h
  · cases h
    have hval : validUtf8 p = true := by simpa [reencodable] using hsafe
    exact ⟨rfl, by simp [Tlv.encodePayload, utf8Lossy_of_valid _ hval]⟩
  · cases h
    have hval : validUtf8 p = true := by simpa [reencodable] using hsafe
    exact ⟨rfl, by simp [Tlv.encodePayload, utf8Lossy_of_valid _ hval]⟩
  · cases h
    have hval : validUtf8 p = true := by simpa [reencodable] using hsafe
    exact ⟨rfl, by simp [Tlv.encodePayload, utf8Lossy_of_valid _ hval]⟩
  · split at h
    · cases h
      rename_i c heq
      exact ⟨rfl, by simpa [Tlv.encodePayload] using caps_decode_encode heq hB⟩
    · cases h
  · split at h
    · cases h
      rename_i m heq
      exact ⟨rfl, by simpa [Tlv.encodePayload] using
        mgmt_decode_encode heq (by simpa [reencodable] using hsafe) hB⟩
    · cases h
  · split at h
    · rename_i hx
      subst hx
      split at h
      · cases h
        rename_i o heq
        exact ⟨rfl, by simpa [Tlv.encodePayload] using
          org_decode_encode heq (by simpa [reencodable] using hsafe) hB⟩
      · cases h
    · cases h

/-- Claim C3 (amended): for every byte string that frames and decodes
successfully into an LLDP TLV, re-encoding the decoded value reproduces the
TLV's bytes exactly, provided the input is re-encodable (`reencodable`): its
text fields are valid UTF-8, an End TLV has an empty payload, and a dot3
MAC/PHY MAU wire code is not 8.  Inputs outside these conditions are
normalised by the decoder (lossy UTF-8 replacement; End payloads of one or
two bytes dropped; MAU code 8 re-encoded as 9), so the unamended law fails
there. -/
theorem c3_reencode_reproduces_input (buf : List Nat) (raw : RawTlv) (t : Tlv)
    (hB : bytesOk buf = true)
    (hraw : RawTlv.decode buf = .ok raw)
    (hdec : Tlv.decode raw = .ok t)
    (hsafe : reencodable raw.ty raw.payload = true) :
    Tlv.encode t = buf.take raw.totalLen := by
  match buf with
  | [] => exact absurd hraw (by simp [RawTlv.decode])
  | [_] => exact absurd hraw (by simp [RawTlv.decode])
  | b0 :: b1 :: rest =>
    rw [RawTlv.decode.eq_def] at hraw
    simp only at hraw
    split at hraw
    · cases hraw
    · cases hraw
      rename_i hlen
      obtain ⟨hb0, h2⟩ := bytesOk_cons hB
      obtain ⟨hb1, hBrest⟩ := bytesOk_cons h2
      have hplen : (rest.take (b0 % 2 * 256 + b1)).length = b0 % 2 * 256 + b1 := by
        rw [List.length_take]
        omega
      obtain ⟨hty, hpl⟩ :=
        tlv_decode_payload_encode hdec hsafe (bytesOk_take _ hBrest)
      simp only [Tlv.encode, RawTlv.totalLen, hty, hpl, hplen]
      simp only [List.take_succ_cons, List.cons.injEq]
      refine ⟨by omega, by omega, trivial⟩

/-- Witness for C3: the four-byte time-to-live TLV `[6, 2, 0, 42]` (type 3,
length 2, value 42) decodes and re-encodes to itself. -/
theorem c3_reencode_reproduces_input_witness :
    Tlv.encode (.TimeToLive 42) = [6, 2, 0, 42] := by
  have h := c3_reencode_reproduces_input [6, 2, 0, 42] ⟨3, [0, 42]⟩ (.TimeToLive 42)
    (by decide) rfl rfl (by decide)
  simpa using h

/-- Counterexample to C3 as stated: the byte string `[10, 1, 255]` is a
SystemName TLV (type 5, length 1) whose payload `[255]` is invalid UTF-8;
it decodes successfully (lossily, to the replacement character U+FFFD), and
re-encoding yields `[10, 3, 239, 191, 189]`, not the original bytes. -/
theorem c3_lossy_text_breaks_reencode :
    RawTlv.decode [10, 1, 255] = .ok ⟨5, [255]⟩ ∧
    Tlv.decode ⟨5, [255]⟩ = .ok (.SystemName [239, 191, 189]) ∧
    Tlv.encode (.SystemName [239, 191, 189]) = [10, 3, 239, 191, 189] ∧
    [10, 3, 239, 191, 189] ≠ [10, 1, 255] := by
  refine ⟨rfl, ?_, rfl, by decide⟩
  have h : Tlv.decode ⟨5, [255]⟩ = .ok (.SystemName (utf8Lossy [255])) := rfl
  rw [h, utf8Lossy_ff]
